import Mathlib

/-!
Verification of the resumable batch-execution engine of the
VisualSphinx-Generator pipeline (src/pipeline/step1.2_claude_rewrite.py,
step1.4_claude_verify.py, step1.6_claude_rule_abstraction.py,
step1.8_claude_rule_classification.py).

The Python scripts are embedded shallowly: JSON result dictionaries become
structures whose `Option` fields model the presence or absence of a JSON
field, the in-memory `results` dictionaries become association lists keyed
by item identifier (insertion replaces an existing key in place, exactly as
a Python `dict` assignment does), the remote call is an oracle function
passed in as a parameter, and the thread-pool execution is modelled as a
sequential fold over the pending work list (one interleaving of the
completion order; all claims below concern the end state, which for
distinct identifiers is the same for every interleaving).
-/

set_option autoImplicit false
set_option linter.unusedVariables false

namespace VisualSphinx

/-- Association-list lookup used to model a Python `dict` access
`results.get(k)` / `k in results`. -/
def lookupKey {κ R : Type} [DecidableEq κ] (k : κ) : List (κ × R) → Option R
  | [] => none
  | p :: rest => if p.1 = k then some p.2 else lookupKey k rest

/-- Association-list update used to model a Python `dict` assignment
`results[k] = r`: an existing binding for `k` is replaced in place, a new
key is appended at the end (Python dictionaries preserve insertion order). -/
def insertKey {κ R : Type} [DecidableEq κ] (k : κ) (r : R) : List (κ × R) → List (κ × R)
  | [] => [(k, r)]
  | p :: rest => if p.1 = k then (k, r) :: rest else p :: insertKey k r rest

/-- Number of bindings of key `k` in an association list. -/
def countKey {κ R : Type} [DecidableEq κ] (k : κ) (l : List (κ × R)) : Nat :=
  l.countP (fun p => decide (p.1 = k))

/-! ### step1.2_claude_rewrite.py: data model -/

/-- An input item of step1.2 (`data` loaded from the input JSON): the
script reads `item.get("id")` (which may be absent, modelled as `none`)
and `item.get("explanation", "")`. -/
structure Item12 where
  id : Option Nat
  explanation : String := ""
deriving DecidableEq

/-- A result record of step1.2: a JSON object with `id` plus either a
`translation` field (success payload) or an `error` field (failure
payload); a record loaded from a hand-edited checkpoint may carry
neither. `Option` models JSON field presence. -/
structure Rec12 where
  id : Option Nat
  translation : Option String := none
  error : Option String := none
deriving DecidableEq

/-- The in-memory `results` dictionary of step1.2, keyed by the raw
`item.get("id")` value (the loader only ever inserts non-`None` keys, but
the worker writes `results[item_id]` even for `item_id = None`). -/
abbrev Results12 := List (Option Nat × Rec12)

/-- Source `step1.2:227-229` and `278-284`: a record blocks reprocessing
iff it has a `translation` or an `error` field. -/
def resolved12 (r : Rec12) : Bool :=
  r.translation.isSome || r.error.isSome

/-- The condition `item.get("id") in results and ("translation" in
results[...] or "error" in results[...])` of `step1.2:278-284`. -/
def skip12 (results : Results12) (oid : Option Nat) : Bool :=
  match lookupKey oid results with
  | some r => resolved12 r
  | none => false

/-- Source `step1.2:275-285`: the pending work list `items_to_process`. -/
def items_to_process12 (data : List Item12) (results : Results12) : List Item12 :=
  data.filter (fun item => ! skip12 results item.id)

/-- Written from the spec's words (§4.1 of spec.md), for comparison with
the source-derived planner: the ordered subset of input items whose
identifier does not already map to a resolved record, where a record is
resolved iff it carries a success payload or an explicit failure
payload. -/
def specPending12 (data : List Item12) (results : Results12) : List Item12 :=
  data.filter (fun item =>
    ! (match lookupKey item.id results with
       | some r => r.translation.isSome || r.error.isSome
       | none => false))

/-! ### step1.2: thread-pool run -/

/-- Mutable state shared by the step1.2 workers: the `results` dictionary,
the `processed_since_last_save` counter, and (for reasoning about the
Periodic Persister) the number of completed save calls. -/
structure PoolState12 where
  res : Results12
  counter : Nat
  saves : Nat
deriving DecidableEq

/-- Source `step1.2:214-273` (`translate_item_process`), processing one
item inside the lock: skip if meanwhile resolved, otherwise store the
executor's record, bump `processed_since_last_save`, and when it reaches
`save_interval` run `save_intermediate_results_local` (which resets the
counter to 0). The remote call and parsing are abstracted into
`exec : Item12 → Rec12`; see `execute12` for that part of the model. -/
def poolStep12 (saveInterval : Nat) (exec : Item12 → Rec12)
    (st : PoolState12) (it : Item12) : PoolState12 :=
  if skip12 st.res it.id then st
  else
    let res' := insertKey it.id (exec it) st.res
    if saveInterval ≤ st.counter + 1 then
      { res := res', counter := 0, saves := st.saves + 1 }
    else
      { res := res', counter := st.counter + 1, saves := st.saves }

/-- The step1.2 thread pool drained to completion: one sequential
interleaving of the workers (the end state is interleaving-independent for
distinct identifiers since each worker touches only its own key). -/
def runPool12 (saveInterval : Nat) (exec : Item12 → Rec12)
    (pending : List Item12) (st : PoolState12) : PoolState12 :=
  pending.foldl (poolStep12 saveInterval exec) st

/-! ### step1.2: checkpoint load and save, whole-run model -/

/-- Id sort key of a step1.2 record: the saved list is sorted by
`x.get("id", float("inf"))` after records with `id = None` have been
filtered out, so `getD` is never exercised on the saved set. -/
def key12 (r : Rec12) : Nat := r.id.getD 0

/-- The sort relation of `save_intermediate_results_local`. -/
def le12 (a b : Rec12) : Prop := key12 a ≤ key12 b

instance : DecidableRel le12 := fun a b => Nat.decLe (key12 a) (key12 b)

instance : IsTotal Rec12 le12 := ⟨fun a b => Nat.le_total (key12 a) (key12 b)⟩

instance : IsTrans Rec12 le12 := ⟨fun _ _ _ => Nat.le_trans⟩

/-- Source `step1.2:191-212` (`save_intermediate_results_local`): the full
current set of records, minus those without an `id`, sorted ascending by
`id`, written as the complete new file contents. Python's stable `sorted`
is modelled by insertion sort (equivalent on the saved sets, whose ids are
pairwise distinct). -/
def save12content (res : Results12) : List Rec12 :=
  List.insertionSort le12 ((res.map (·.2)).filter (fun r => r.id.isSome))

/-- Source `step1.2:174-187`: loading the intermediate checkpoint file into
the `results` dictionary; records whose `id` is `None` are dropped, a
missing (or unreadable) file yields the empty dictionary. -/
def load12 (file : Option (List Rec12)) : Results12 :=
  match file with
  | none => []
  | some recs =>
      recs.foldl (fun res rec =>
        if rec.id.isSome then insertKey rec.id rec res else res) []

/-- The two files step1.2 touches: the intermediate checkpoint path
`{stem}_intermediate{suffix}` (loaded at start, saved to during the run)
and the final output path `args.output`. `none` models a missing file. -/
structure FS12 where
  interFile : Option (List Rec12)
  outFile : Option (List Rec12)
deriving DecidableEq

/-- Source `step1.2:166-349` (`main`), end to end: load the checkpoint
from the intermediate path, compute the pending subset, drain the thread
pool, perform the unconditional final save to the intermediate path
(`step1.2:329`), and finally rename the intermediate file onto
`args.output` (`step1.2:332`), which removes the intermediate file. The
returned number counts the save calls performed (periodic plus final). -/
def run12 (saveInterval : Nat) (exec : Item12 → Rec12) (data : List Item12)
    (fs : FS12) : FS12 × Nat :=
  let res0 := load12 fs.interFile
  let pending := items_to_process12 data res0
  let stF := runPool12 saveInterval exec pending ⟨res0, 0, 0⟩
  let content := save12content stF.res
  (⟨none, some content⟩, stF.saves + 1)

/-! ### Retry with exponential backoff -/

/-- Whitespace-stripping of a string, Python's `str.strip()` (structural
recursion, so that concrete instances evaluate inside the kernel). -/
def trimChars (s : String) : String :=
  String.mk (((s.data.dropWhile Char.isWhitespace).reverse.dropWhile
    Char.isWhitespace).reverse)

/-- Lower-casing of a string, Python's `str.lower()` (structural
recursion over the character list). -/
def toLowerStr (s : String) : String :=
  String.mk (s.data.map Char.toLower)

/-- Char-list test: does `pat` begin `s`. -/
def beginsWith : List Char → List Char → Bool
  | [], _ => true
  | _ :: _, [] => false
  | p :: ps, c :: cs => p == c && beginsWith ps cs

/-- Index of the first occurrence of `pat` inside `s` (leftmost match of a
literal pattern, as Python's `re.search` / `in` find it). -/
def findSub (pat : List Char) : List Char → Option Nat
  | [] => if beginsWith pat [] then some 0 else none
  | c :: rest =>
      if beginsWith pat (c :: rest) then some 0
      else (findSub pat rest).map (· + 1)

/-- Python's `pat in s` on strings. -/
def containsSub (pat s : String) : Bool :=
  (findSub pat.data s.data).isSome

/-- Source `step1.2:32-34`: the `giveup` predicate of the backoff
decorator, `not ("rate_limit_error" in str(e).lower())`. -/
def giveup12 (e : String) : Bool :=
  ! containsSub "rate_limit_error" (toLowerStr e)

/-- Outcome of a retried call: the value or the final error, together with
the number of attempts actually made (each attempt is one remote call). -/
inductive RetryOutcome (A : Type) where
  | ok (a : A) (attempts : Nat)
  | err (e : String) (attempts : Nat)
deriving DecidableEq

/-- Attempt count of a `RetryOutcome`. -/
def RetryOutcome.attempts {A : Type} : RetryOutcome A → Nat
  | .ok _ n => n
  | .err _ n => n

/-- The `backoff.on_exception(backoff.expo, ..., max_tries, base=2,
max_time)` retry loop. `call n` is the outcome of the `n`-th attempt
(0-based), `dur n` its duration in seconds; the sleep before attempt
`n + 1` is `2 ^ n` seconds (`backoff.expo` with base 2). `remaining` is
the number of retries still allowed (`max_tries - 1 - n`), which makes the
recursion structural; after a failed attempt the loop re-raises when the
`giveup` predicate holds, when `max_tries` attempts have been made, or
when the elapsed wall-clock time has reached `max_time`. -/
def backoffGo {A : Type} (giveup : String → Bool) (maxTime : Nat)
    (call : Nat → Except String A) (dur : Nat → Nat) :
    Nat → Nat → Nat → RetryOutcome A
  | n, _, 0 =>
      match call n with
      | .ok a => .ok a (n + 1)
      | .error e => .err e (n + 1)
  | n, elapsed, remaining + 1 =>
      match call n with
      | .ok a => .ok a (n + 1)
      | .error e =>
          if giveup e then .err e (n + 1)
          else if maxTime ≤ elapsed + dur n then .err e (n + 1)
          else backoffGo giveup maxTime call dur
            (n + 1) (elapsed + dur n + 2 ^ n) remaining

/-- A run of the backoff decorator: up to `maxTries` attempts in total. -/
def backoffRun {A : Type} (giveup : String → Bool) (maxTries maxTime : Nat)
    (call : Nat → Except String A) (dur : Nat → Nat) : RetryOutcome A :=
  backoffGo giveup maxTime call dur 0 0 (maxTries - 1)

/-- Source `step1.2:26-64` (`translate_with_retry`): the remote call under
`backoff.on_exception(backoff.expo, Exception, max_tries=8, base=2,
max_time=300, giveup=...)`, where `giveup` rejects every failure that is
not classified as a rate-limit condition. -/
def translate_with_retry {A : Type} (call : Nat → Except String A)
    (dur : Nat → Nat) : RetryOutcome A :=
  backoffRun giveup12 8 300 call dur

/-! ### Response parsing -/

/-- Content of the leftmost `openTag ... closeTag` pair of `response`
(whitespace-trimmed), or `none` when the pattern does not occur: the model
of `re.search(r"<tag>\s*(.*?)\s*</tag>", response, re.DOTALL)` followed by
`.strip()` on the captured lazy group. -/
def extractTagContent (openTag closeTag response : String) : Option String :=
  match findSub openTag.data response.data with
  | none => none
  | some i =>
      let after := response.data.drop (i + openTag.data.length)
      match findSub closeTag.data after with
      | none => none
      | some j => some (trimChars (String.mk (after.take j)))

/-- Source `step1.2:248-256`: parse the response; when the
`<translated_explanation>` tag pair is absent fall back to the entire
response, stripped, and emit a warning (the `Bool` component records
whether the warning was printed). Never raises: this is a total
function. -/
def parseTranslation (response : String) : String × Bool :=
  match extractTagContent "<translated_explanation>" "</translated_explanation>" response with
  | some t => (t, false)
  | none => (trimChars response, true)

/-- Turn a retry outcome into the raised-or-returned result seen by the
caller of the decorated function. -/
def RetryOutcome.toExcept {A : Type} : RetryOutcome A → Except String A
  | .ok a _ => .ok a
  | .err e _ => .error e

/-- Source `step1.2:232-273`: the unit of work of step1.2 after the skip
check, as a function of the outcome of the retried remote call. On a
response, parse it (with fallback) into a success record; on any raised
exception (including retry exhaustion) build a failure record carrying the
item's identifier and the error string. Total by construction: no path
raises past this boundary. -/
def translate_item_exec (it : Item12) (callOutcome : Except String String) : Rec12 :=
  match callOutcome with
  | .ok response => { id := it.id, translation := some (parseTranslation response).1 }
  | .error e => { id := it.id, error := some e }

/-- The full step1.2 executor: retried remote call composed with parsing
and error conversion. -/
def execute12 (it : Item12) (call : Nat → Except String String)
    (dur : Nat → Nat) : Rec12 :=
  translate_item_exec it (translate_with_retry call dur).toExcept

/-! ### step1.4_claude_verify.py: data model -/

/-- An input puzzle item of step1.4: `d.get("id")` may be absent; the
`image` path may be absent or empty; `correct_answer` defaults to `""`. -/
structure Item14 where
  id : Option Nat
  image : Option String := none
  correct_answer : String := ""
deriving DecidableEq

/-- The success payload of a step1.4 record: the extracted reasoning and
answer plus the raw response (`step1.4:193-201`). -/
structure Success14 where
  correct_answer : String := ""
  reasoning : String := ""
  answer : String := ""
  raw_response : String := ""
deriving DecidableEq

/-- A result record of step1.4: `id` plus either the success payload or an
`error` string; a record loaded from a hand-edited checkpoint may carry
neither. -/
structure Rec14 where
  id : Nat
  success : Option Success14 := none
  error : Option String := none
deriving DecidableEq

/-- The in-memory `self.results` dictionary of step1.4/1.6/1.8, keyed by
the (non-`None`) record id. -/
abbrev Results14 := List (Nat × Rec14)

/-- A step1.4 record is resolved in the spec's sense (§4.1) iff it carries
a success payload or an explicit failure payload. -/
def resolved14 (r : Rec14) : Bool :=
  r.success.isSome || r.error.isSome

/-- Source `step1.4:233`: the pending work list,
`[d for d in data if d.get("id") not in self.results]` — an item is
skipped whenever any record for its identifier exists, resolved or not. -/
def items_to_process14 (data : List Item14) (results : Results14) : List Item14 :=
  data.filter (fun d =>
    match d.id with
    | some i => (lookupKey i results).isNone
    | none => true)

/-- Written from the spec's words (§4.1), for comparison with
`items_to_process14`: the subset of items whose identifier does not map to
a resolved record. -/
def specPending14 (data : List Item14) (results : Results14) : List Item14 :=
  data.filter (fun d =>
    ! (match d.id with
       | some i =>
           match lookupKey i results with
           | some r => resolved14 r
           | none => false
       | none => false))

/-! ### step1.4: executor -/

/-- Source `step1.4:169-205`, the body of `analyze_puzzle` for one
attempt, as a function of the remote-call outcome (which also stands for
the image-encoding and prompt-building steps preceding it: any exception
they raise arrives at the same `except` clause). A success is parsed into
a record; a raised exception is re-raised when its text contains
`"rate_limit_error"` (note: *not* lowercased in this stage,
`step1.4:203`), and converted into a failure record otherwise. -/
def analyzeOnce14 (itemId : Nat) (correct : String)
    (callRes : Except String String) : Except String Rec14 :=
  match callRes with
  | .ok response =>
      .ok { id := itemId
            success := some
              { correct_answer := correct
                reasoning := (extractTagContent "<reasoning>" "</reasoning>" response).getD ""
                answer := (extractTagContent "<answer>" "</answer>" response).getD ""
                raw_response := response } }
  | .error e =>
      if containsSub "rate_limit_error" e then .error e
      else .ok { id := itemId, error := some e }

/-- Source `step1.4:148-205`: `analyze_puzzle` under its backoff decorator
`backoff.on_exception(backoff.expo, Exception, max_tries=8, base=2,
jitter=None, max_time=300)` — note there is no `giveup` here, so every
exception that reaches the decorator (only re-raised rate-limit errors
can) is retried; after retry exhaustion the exception propagates to the
caller. -/
def analyze_puzzle14 (itemId : Nat) (correct : String)
    (call : Nat → Except String String) (dur : Nat → Nat) : RetryOutcome Rec14 :=
  backoffRun (fun _ => false) 8 300
    (fun n => analyzeOnce14 itemId correct (call n)) dur

/-! ### step1.4: thread-pool run, checkpoint load and save, whole stage -/

/-- Worker-shared state of step1.4: the results dictionary and the number
of `_save` calls made. -/
structure PoolState14 where
  res : Results14
  saves : Nat
deriving DecidableEq

/-- Source `step1.4:244-256` (`worker`): store the record under the item's
id (items without id are only warned about), compute `need_save =
len(self.results) % save_interval == 0` inside the lock, and call `_save`
after releasing it when the flag is set. The executor outcome is
abstracted into `exec : Item14 → Rec14` (runs that reach their normal end,
where `analyze_puzzle` returned a record for every item). -/
def poolStep14 (saveInterval : Nat) (exec : Item14 → Rec14)
    (st : PoolState14) (it : Item14) : PoolState14 :=
  match it.id with
  | none => st
  | some i =>
      let res' := insertKey i (exec it) st.res
      if res'.length % saveInterval == 0 then
        { res := res', saves := st.saves + 1 }
      else
        { res := res', saves := st.saves }

/-- The step1.4 thread pool drained to completion (one sequential
interleaving; end state is interleaving-independent for distinct ids). -/
def runPool14 (saveInterval : Nat) (exec : Item14 → Rec14)
    (pending : List Item14) (st : PoolState14) : PoolState14 :=
  pending.foldl (poolStep14 saveInterval exec) st

/-- The sort relation of `_save` (`step1.4:285`): ascending record id. -/
def le14 (a b : Rec14) : Prop := a.id ≤ b.id

instance : DecidableRel le14 := fun a b => Nat.decLe a.id b.id

instance : IsTotal Rec14 le14 := ⟨fun a b => Nat.le_total a.id b.id⟩

instance : IsTrans Rec14 le14 := ⟨fun _ _ _ => Nat.le_trans⟩

/-- Source `step1.4:272-297` (`_save`): the full current set of records,
sorted ascending by id, written as the complete new file contents (after
ensuring the destination directory exists). In this model every record
carries an id, so the `id is not None` filter of `step1.4:282-284` is the
identity. -/
def save14content (res : Results14) : List Rec14 :=
  List.insertionSort le14 (res.map (·.2))

/-- Source `step1.4:286-292` (`_save`, same shape in `step1.6:245-257` and
`step1.8:216-228`): first `Path(path).parent.mkdir(parents=True,
exist_ok=True)` — the destination directory exists afterwards whether or
not it did before — then the sorted full snapshot replaces the file
contents. The pair returned is (directory exists after, file contents
after). -/
def save14file (dirExists : Bool) (res : Results14)
    (oldFile : Option (List Rec14)) : Bool × Option (List Rec14) :=
  (true, some (save14content res))

/-- Source `step1.2:191-212` (`save_intermediate_results_local`): step1.2
contains no `mkdir` at all, so when the destination directory is missing
the `open(..., "w")` raises, the surrounding `except` of `step1.2:211-212`
swallows the error, and the prior file contents are left untouched; only
when the directory exists is the sorted full snapshot written. The pair
returned is (directory exists after, file contents after). -/
def save12file (dirExists : Bool) (res : Results12)
    (oldFile : Option (List Rec12)) : Bool × Option (List Rec12) :=
  if dirExists then (dirExists, some (save12content res))
  else (dirExists, oldFile)

/-- Source `step1.4:207-217` (`_load`): fold the records of the checkpoint
file into the results dictionary, keyed by their id; a missing, empty or
corrupt file leaves the dictionary empty. -/
def load14 (file : Option (List Rec14)) : Results14 :=
  match file with
  | none => []
  | some recs => recs.foldl (fun res rec => insertKey rec.id rec res) []

/-- Source `step1.4:219-270` (`process_batch`) at the file level: load the
checkpoint from `outfile`, compute the pending subset; when it is empty
save the loaded set back (only if nonempty) and return, otherwise drain
the pool and perform the final save. Load path and save path are the same
file, which is what closes the resume loop for this stage. -/
def stage14 (saveInterval : Nat) (exec : Item14 → Rec14) (data : List Item14)
    (file : Option (List Rec14)) : Option (List Rec14) :=
  let res0 := load14 file
  let pending := items_to_process14 data res0
  if pending.isEmpty then
    if res0.isEmpty then file else some (save14content res0)
  else
    some (save14content (runPool14 saveInterval exec pending ⟨res0, 0⟩).res)

/-! ### step1.6_claude_rule_abstraction.py: data model -/

/-- An input item of step1.6/1.8: `itm["id"]` is accessed unconditionally
(a `KeyError` would abort), `itm["image"]` is the attachment path. -/
structure Item16 where
  id : Nat
  image : String := ""
  correct_answer : String := ""
deriving DecidableEq

/-- The success payload of a step1.6 record (`step1.6:205-218`). -/
structure Success16 where
  correct_answer : String := ""
  detailed_analysis : String := ""
  puzzle_breakdown : String := ""
  key_points : List String := []
  raw_response : String := ""
deriving DecidableEq

/-- A result record of step1.6. -/
structure Rec16 where
  id : Nat
  success : Option Success16 := none
  error : Option String := none
deriving DecidableEq

/-- The results dictionary of step1.6. -/
abbrev Results16 := List (Nat × Rec16)

/-- Split a char list at every occurrence of `sep` (Python `splitlines`
for `sep = newline`, up to the treatment of a trailing newline, which the
caller filters out anyway). -/
def splitOnChar (sep : Char) : List Char → List (List Char)
  | [] => [[]]
  | c :: rest =>
      let r := splitOnChar sep rest
      if c == sep then [] :: r
      else
        match r with
        | [] => [[c]]
        | g :: gs => (c :: g) :: gs

/-- Source `step1.6:212-216`: the `key_points` list is the nonempty,
non-`"-"` stripped lines of the tag content, each with leading `'-'` and
`' '` characters removed (`ln.strip().lstrip("- ")`). -/
def parseKeyPoints (s : String) : List String :=
  ((splitOnChar '\n' s.data).map (fun ln => trimChars (String.mk ln))).filterMap (fun t =>
    if t = "" || t = "-" then none
    else some (String.mk (t.data.dropWhile (fun c => c == '-' || c == ' '))))

/-- Source `step1.6:201-218`: parse one successful batch entry into a
success record (`take tag` is `extractTagContent` with fallback `""`). -/
def parseBatchEntry16 (pid : Nat) (correct : String) (txt : String) : Rec16 :=
  { id := pid
    success := some
      { correct_answer := correct
        detailed_analysis := (extractTagContent "<detailed_analysis>" "</detailed_analysis>" txt).getD ""
        puzzle_breakdown := (extractTagContent "<puzzle_breakdown>" "</puzzle_breakdown>" txt).getD ""
        key_points := parseKeyPoints ((extractTagContent "<key_points>" "</key_points>" txt).getD "")
        raw_response := txt } }

/-- Per-item outcome reported by the provider for one batch entry:
either a message whose text is concatenated (`step1.6:194-199`), or a
provider-level error (`step1.6:219-222`). -/
inductive BatchEntry where
  | message (txt : String)
  | failure (err : String)
deriving DecidableEq

/-- Source `step1.6:127-154` (`_prepare_batch_requests`): keep, in order,
the chunk items that are not already in the results dictionary and whose
image encodes successfully; an item whose encoding raises is *skipped with
a log line and gets no record* (`step1.6:137-140`). The returned list
stands for the request list (each request carries `custom_id = str(id)`). -/
def prepare16 (encode : String → Except String Unit) (res : Results16) :
    List Item16 → List Item16
  | [] => []
  | itm :: rest =>
      if (lookupKey itm.id res).isSome then prepare16 encode res rest
      else
        match encode itm.image with
        | .error _ => prepare16 encode res rest
        | .ok _ => itm :: prepare16 encode res rest

/-- Source `step1.6:192-222`: read the per-item outcomes of an ended batch
job and store one record per submitted request, keyed by its original
identifier. -/
def applyChunk16 (outcome : Nat → BatchEntry) (reqs : List Item16)
    (res : Results16) : Results16 :=
  reqs.foldl (fun r itm =>
    match outcome itm.id with
    | .message txt => insertKey itm.id (parseBatchEntry16 itm.id itm.correct_answer txt) r
    | .failure err => insertKey itm.id ⟨itm.id, none, some err⟩ r) res

/-- Fixed-size chunking of the todo list (`todo[idx : idx + batch_size]`
for `idx = 0, batch_size, ...`). The fuel argument (instantiated with the
list length, always sufficient) makes the recursion structural. -/
def chunkListGo {α : Type} (n : Nat) : Nat → List α → List (List α)
  | 0, _ => []
  | _, [] => []
  | fuel + 1, x :: xs =>
      (x :: xs.take (n - 1)) :: chunkListGo n fuel (xs.drop (n - 1))

/-- The chunks of `l` of size `n` (the last one possibly shorter). -/
def chunkList {α : Type} (n : Nat) (l : List α) : List (List α) :=
  chunkListGo n l.length l

/-- Source `step1.6:167-227`, the loop body over chunks. `ord` is the
1-based chunk ordinal (`idx // batch_size + 1`), `batchOk ord` tells
whether the submit/poll/read of that chunk raised (the `except` of
`step1.6:223-224` swallows the error, leaving every record of the chunk
unwritten), and a periodic save happens after a chunk iff `ord %
save_interval == 0` — except that an empty request list `continue`s past
the save check (`step1.6:174-176`). The accumulator carries the results
dictionary and the number of save calls. -/
def processChunks16 (encode : String → Except String Unit)
    (outcome : Nat → BatchEntry) (batchOk : Nat → Bool) (saveInterval : Nat) :
    Nat → List (List Item16) → Results16 × Nat → Results16 × Nat
  | _, [], acc => acc
  | ord, chunk :: rest, (res, saves) =>
      let reqs := prepare16 encode res chunk
      if reqs.isEmpty then
        processChunks16 encode outcome batchOk saveInterval (ord + 1) rest (res, saves)
      else
        let res' := if batchOk ord then applyChunk16 outcome reqs res else res
        let saves' := if ord % saveInterval == 0 then saves + 1 else saves
        processChunks16 encode outcome batchOk saveInterval (ord + 1) rest (res', saves')

/-- Source `step1.6:156-231` (`process_batch`) after the checkpoint has
been loaded into `res0`: compute the todo list; when it is empty print
`"Nothing to do."` and return with *no* save at all; otherwise process the
chunks and perform the final save. Returns the final results dictionary
and the number of save calls performed. -/
def process_batch16 (encode : String → Except String Unit)
    (outcome : Nat → BatchEntry) (batchOk : Nat → Bool)
    (batchSize saveInterval : Nat) (items : List Item16) (res0 : Results16) :
    Results16 × Nat :=
  let todo := items.filter (fun x => (lookupKey x.id res0).isNone)
  if todo.isEmpty then (res0, 0)
  else
    let acc := processChunks16 encode outcome batchOk saveInterval 1
      (chunkList batchSize todo) (res0, 0)
    (acc.1, acc.2 + 1)

/-! ### step1.8_claude_rule_classification.py -/

/-- The success payload of a step1.8 record (`step1.8:183-190`). -/
structure Success18 where
  correct_answer : String := ""
  puzzle_breakdown : String := ""
  question_type : String := ""
  knowledge_point : String := ""
  raw_response : String := ""
deriving DecidableEq

/-- A result record of step1.8. -/
structure Rec18 where
  id : Nat
  success : Option Success18 := none
  error : Option String := none
deriving DecidableEq

/-- The results dictionary of step1.8. -/
abbrev Results18 := List (Nat × Rec18)

/-- Source `step1.8:179-190`: parse one successful batch entry. -/
def parseBatchEntry18 (pid : Nat) (correct : String) (txt : String) : Rec18 :=
  { id := pid
    success := some
      { correct_answer := correct
        puzzle_breakdown := (extractTagContent "<puzzle_breakdown>" "</puzzle_breakdown>" txt).getD ""
        question_type := (extractTagContent "<question_type>" "</question_type>" txt).getD ""
        knowledge_point := (extractTagContent "<knowledge_point>" "</knowledge_point>" txt).getD ""
        raw_response := txt } }

/-- Source `step1.8:109-137` (`_prepare_requests`): same skip behaviour as
step1.6, items whose image fails to encode are dropped without a record. -/
def prepare18 (encode : String → Except String Unit) (res : Results18) :
    List Item16 → List Item16
  | [] => []
  | it :: rest =>
      if (lookupKey it.id res).isSome then prepare18 encode res rest
      else
        match encode it.image with
        | .error _ => prepare18 encode res rest
        | .ok _ => it :: prepare18 encode res rest

/-- Source `step1.8:170-194`: store one record per submitted request. -/
def applyChunk18 (outcome : Nat → BatchEntry) (reqs : List Item16)
    (res : Results18) : Results18 :=
  reqs.foldl (fun r it =>
    match outcome it.id with
    | .message txt => insertKey it.id (parseBatchEntry18 it.id it.correct_answer txt) r
    | .failure err => insertKey it.id ⟨it.id, none, some err⟩ r) res

/-- Source `step1.8:149-198`, the loop body over chunks, identical in
structure to `processChunks16`. -/
def processChunks18 (encode : String → Except String Unit)
    (outcome : Nat → BatchEntry) (batchOk : Nat → Bool) (saveInterval : Nat) :
    Nat → List (List Item16) → Results18 × Nat → Results18 × Nat
  | _, [], acc => acc
  | ord, chunk :: rest, (res, saves) =>
      let reqs := prepare18 encode res chunk
      if reqs.isEmpty then
        processChunks18 encode outcome batchOk saveInterval (ord + 1) rest (res, saves)
      else
        let res' := if batchOk ord then applyChunk18 outcome reqs res else res
        let saves' := if ord % saveInterval == 0 then saves + 1 else saves
        processChunks18 encode outcome batchOk saveInterval (ord + 1) rest (res', saves')

/-- Source `step1.8:139-202` (`process`): when the todo list is empty
print `"Nothing new."` and return with *no* save (`step1.8:144-147`),
otherwise process the chunks and perform the final save. -/
def process18 (encode : String → Except String Unit)
    (outcome : Nat → BatchEntry) (batchOk : Nat → Bool)
    (batchSize saveInterval : Nat) (items : List Item16) (res0 : Results18) :
    Results18 × Nat :=
  let todo := items.filter (fun x => (lookupKey x.id res0).isNone)
  if todo.isEmpty then (res0, 0)
  else
    let acc := processChunks18 encode outcome batchOk saveInterval 1
      (chunkList batchSize todo) (res0, 0)
    (acc.1, acc.2 + 1)

/-! ### Credential selection in the batch stages -/

/-- The constructed API client, reduced to the credential it was given. -/
structure ApiClient where
  apiKey : String
deriving DecidableEq

/-- Source `step1.6:46-60` (`BatchRegularityExtractor.__init__`): the
constructor receives an `api_key` parameter but builds the client with the
module-level `Anthropic_API_KEY` (`step1.6:60`), ignoring the parameter. -/
def batchExtractorInitClient (api_key : Option String)
    (anthropicApiKey : String) : ApiClient :=
  { apiKey := anthropicApiKey }

/-- Source `step1.8:60-72` (`PuzzleClassifier.__init__`): same as step1.6,
the client is built with the module-level `Anthropic_API_KEY`
(`step1.8:72`). -/
def puzzleClassifierInitClient (api_key : Option String)
    (anthropicApiKey : String) : ApiClient :=
  { apiKey := anthropicApiKey }

/-! ### Auxiliary notions used by the statements -/

/-- The keys of an association list are pairwise distinct — the invariant
every `dict` of the scripts maintains by construction (an `abbrev`, so
that concrete instances stay decidable). -/
abbrev keysNodup {κ R : Type} [DecidableEq κ] (l : List (κ × R)) : Prop :=
  (l.map (·.1)).Nodup

/-- Wall-clock seconds spent by attempts `n, n+1, ..., n+k-1` of a backoff
loop, call durations plus the exponential sleeps (`2 ^ i` after attempt
`i`). -/
def elapsedAcc (dur : Nat → Nat) (n : Nat) : Nat → Nat
  | 0 => 0
  | k + 1 => dur n + 2 ^ n + elapsedAcc dur (n + 1) k

/-! ## Lemmas about the dictionary model -/

section AssocLemmas

variable {κ R : Type} [DecidableEq κ]

theorem lookupKey_insertKey_self (k : κ) (r : R) (l : List (κ × R)) :
    lookupKey k (insertKey k r l) = some r := by
  induction l with
  | nil => simp [insertKey, lookupKey]
  | cons p rest ih =>
    by_cases h : p.1 = k
    · simp [insertKey, h, lookupKey]
    · simp [insertKey, h, lookupKey, ih]

theorem lookupKey_insertKey_ne {k k' : κ} (hne : k' ≠ k) (r : R) (l : List (κ × R)) :
    lookupKey k (insertKey k' r l) = lookupKey k l := by
  induction l with
  | nil => simp [insertKey, lookupKey, hne]
  | cons p rest ih =>
    by_cases h : p.1 = k'
    · simp [insertKey, h, lookupKey, hne, h.symm ▸ hne]
    · by_cases h2 : p.1 = k
      · simp [insertKey, h, lookupKey, h2, Ne.symm hne]
      · simp [insertKey, h, lookupKey, h2, ih]

theorem lookupKey_mem {k : κ} {r : R} : ∀ {l : List (κ × R)},
    lookupKey k l = some r → (k, r) ∈ l := by
  intro l
  induction l with
  | nil => intro h; simp [lookupKey] at h
  | cons p rest ih =>
    intro h
    by_cases hp : p.1 = k
    · simp [lookupKey, hp] at h
      subst hp
      subst h
      exact List.mem_cons_self _ _
    · simp [lookupKey, hp] at h
      exact List.mem_cons_of_mem _ (ih h)

theorem lookupKey_eq_none_iff {k : κ} {l : List (κ × R)} :
    lookupKey k l = none ↔ k ∉ l.map (·.1) := by
  induction l with
  | nil => simp [lookupKey]
  | cons p rest ih =>
    by_cases hp : p.1 = k
    · simp [lookupKey, hp]
    · simp [lookupKey, hp, ih, Ne.symm hp]

theorem lookupKey_isSome_iff {k : κ} {l : List (κ × R)} :
    (lookupKey k l).isSome ↔ k ∈ l.map (·.1) := by
  induction l with
  | nil => simp [lookupKey]
  | cons p rest ih =>
    by_cases hp : p.1 = k
    · simp [lookupKey, hp]
    · simp [lookupKey, hp, ih, Ne.symm hp]

theorem insertKey_of_not_mem_keys {k : κ} {l : List (κ × R)}
    (h : k ∉ l.map (·.1)) (r : R) : insertKey k r l = l ++ [(k, r)] := by
  induction l with
  | nil => simp [insertKey]
  | cons p rest ih =>
    simp only [List.map_cons, List.mem_cons] at h
    push_neg at h
    simp [insertKey, Ne.symm h.1, ih h.2]

theorem mem_keys_insertKey {a k : κ} {r : R} {l : List (κ × R)} :
    a ∈ (insertKey k r l).map (·.1) ↔ a ∈ l.map (·.1) ∨ a = k := by
  induction l with
  | nil => simp [insertKey, eq_comm]
  | cons p rest ih =>
    by_cases hp : p.1 = k
    · subst hp
      simp [insertKey]
      tauto
    · simp [insertKey, hp, ih]
      tauto

theorem keysNodup_insertKey {l : List (κ × R)} (h : keysNodup l) (k : κ) (r : R) :
    keysNodup (insertKey k r l) := by
  induction l with
  | nil => simp [insertKey, keysNodup]
  | cons p rest ih =>
    unfold keysNodup at h ⊢
    simp only [List.map_cons, List.nodup_cons] at h
    by_cases hp : p.1 = k
    · subst hp
      rw [show insertKey p.1 r (p :: rest) = (p.1, r) :: rest from by simp [insertKey]]
      simp only [List.map_cons, List.nodup_cons]
      exact h
    · have hr := ih h.2
      simp only [insertKey, hp, if_false, List.map_cons, List.nodup_cons]
      refine ⟨fun hmem => ?_, hr⟩
      rcases mem_keys_insertKey.mp hmem with hin | hEq
      · exact h.1 hin
      · exact hp hEq

theorem countKey_eq_zero_of_not_mem {k : κ} {l : List (κ × R)}
    (h : k ∉ l.map (·.1)) : countKey k l = 0 := by
  induction l with
  | nil => rfl
  | cons p rest ih =>
    simp only [List.map_cons, List.mem_cons] at h
    push_neg at h
    simp [countKey, List.countP_cons, Ne.symm h.1] at *
    exact ih h.2

theorem countKey_eq_one_of_lookup {k : κ} {l : List (κ × R)}
    (hn : keysNodup l) (h : (lookupKey k l).isSome) : countKey k l = 1 := by
  induction l with
  | nil => simp [lookupKey] at h
  | cons p rest ih =>
    unfold keysNodup at hn
    simp only [List.map_cons, List.nodup_cons] at hn
    by_cases hp : p.1 = k
    · subst hp
      have : countKey p.1 rest = 0 := countKey_eq_zero_of_not_mem hn.1
      simp [countKey, List.countP_cons] at this ⊢
      exact this
    · simp only [lookupKey, hp, if_false] at h
      have := ih hn.2 h
      simp [countKey, List.countP_cons, hp] at this ⊢
      exact this

theorem lookupKey_isSome_insertKey {k : κ} (k' : κ) (r : R) {l : List (κ × R)}
    (h : (lookupKey k l).isSome) : (lookupKey k (insertKey k' r l)).isSome := by
  by_cases hk : k' = k
  · subst hk
    simp [lookupKey_insertKey_self]
  · rw [lookupKey_insertKey_ne hk]
    exact h

theorem foldl_insertKey_fresh (f : R → κ) :
    ∀ (recs : List R) (acc : List (κ × R)),
      (recs.map f).Nodup → (∀ r ∈ recs, f r ∉ acc.map (·.1)) →
      recs.foldl (fun res rec => insertKey (f rec) rec res) acc
        = acc ++ recs.map (fun r => (f r, r)) := by
  intro recs
  induction recs with
  | nil => intro acc _ _; simp
  | cons r rest ih =>
    intro acc hnd hfresh
    simp only [List.map_cons, List.nodup_cons] at hnd
    have hstep : insertKey (f r) r acc = acc ++ [(f r, r)] :=
      insertKey_of_not_mem_keys (hfresh r (List.mem_cons_self _ _)) r
    simp only [List.foldl_cons, hstep]
    rw [ih (acc ++ [(f r, r)]) hnd.2 ?_]
    · simp
    · intro r2 hr2
      simp only [List.map_append, List.mem_append, List.map_cons, List.map_nil,
        List.mem_singleton]
      push_neg
      refine ⟨hfresh r2 (List.mem_cons_of_mem _ hr2), fun hEq => hnd.1 ?_⟩
      rw [← hEq]
      exact List.mem_map_of_mem f hr2

end AssocLemmas

theorem mem_insertKey {κ R : Type} [DecidableEq κ] {p : κ × R} {k : κ} {r : R} :
    ∀ {l : List (κ × R)}, p ∈ insertKey k r l → p ∈ l ∨ p = (k, r) := by
  intro l
  induction l with
  | nil => intro h; simp [insertKey] at h; right; exact h
  | cons q rest ih =>
    intro h
    by_cases hq : q.1 = k
    · simp only [insertKey, hq, if_true, List.mem_cons] at h
      rcases h with h | h
      · right; exact h
      · left; exact List.mem_cons_of_mem _ h
    · simp only [insertKey, hq, if_false, List.mem_cons] at h
      rcases h with h | h
      · left; exact h ▸ List.mem_cons_self _ _
      · rcases ih h with h2 | h2
        · left; exact List.mem_cons_of_mem _ h2
        · right; exact h2

/-! ## Lemmas about the step1.2 thread pool -/

theorem poolStep12_res_of_not_skip (si : Nat) (exec : Item12 → Rec12)
    (st : PoolState12) (it : Item12) (h : skip12 st.res it.id = false) :
    (poolStep12 si exec st it).res = insertKey it.id (exec it) st.res := by
  unfold poolStep12
  rw [h]
  by_cases hc : si ≤ st.counter + 1 <;> simp [hc]

theorem poolStep12_res_lookup_ne (si : Nat) (exec : Item12 → Rec12)
    (st : PoolState12) (it : Item12) {k : Option Nat} (h : k ≠ it.id) :
    lookupKey k (poolStep12 si exec st it).res = lookupKey k st.res := by
  unfold poolStep12
  by_cases hs : skip12 st.res it.id = true
  · simp [hs]
  · rw [Bool.not_eq_true] at hs
    rw [hs]
    by_cases hc : si ≤ st.counter + 1 <;>
      simp [hc, lookupKey_insertKey_ne (Ne.symm h)]

theorem runPool12_frozen (si : Nat) (exec : Item12 → Rec12) :
    ∀ (P : List Item12) (st : PoolState12) (k : Option Nat),
      k ∉ P.map Item12.id →
      lookupKey k (runPool12 si exec P st).res = lookupKey k st.res := by
  intro P
  induction P with
  | nil => intro st k _; rfl
  | cons it rest ih =>
    intro st k hk
    simp only [List.map_cons, List.mem_cons] at hk
    push_neg at hk
    unfold runPool12 at *
    simp only [List.foldl_cons]
    rw [ih _ k hk.2]
    exact poolStep12_res_lookup_ne si exec st it hk.1

theorem runPool12_lookup (si : Nat) (exec : Item12 → Rec12) :
    ∀ (P : List Item12) (st : PoolState12),
      (P.map Item12.id).Nodup →
      (∀ it2 ∈ P, skip12 st.res it2.id = false) →
      ∀ it ∈ P, lookupKey it.id (runPool12 si exec P st).res = some (exec it) := by
  intro P
  induction P with
  | nil => intro st _ _ it h; simp at h
  | cons it0 rest ih =>
    intro st hnd hskip it hmem
    simp only [List.map_cons, List.nodup_cons] at hnd
    have hstep : (poolStep12 si exec st it0).res = insertKey it0.id (exec it0) st.res :=
      poolStep12_res_of_not_skip si exec st it0 (hskip it0 (List.mem_cons_self _ _))
    rcases List.mem_cons.mp hmem with rfl | hmem2
    · unfold runPool12
      simp only [List.foldl_cons]
      rw [show List.foldl (poolStep12 si exec) (poolStep12 si exec st it) rest
            = runPool12 si exec rest (poolStep12 si exec st it) from rfl]
      rw [runPool12_frozen si exec rest _ it.id hnd.1, hstep,
        lookupKey_insertKey_self]
    · unfold runPool12
      simp only [List.foldl_cons]
      rw [show List.foldl (poolStep12 si exec) (poolStep12 si exec st it0) rest
            = runPool12 si exec rest (poolStep12 si exec st it0) from rfl]
      refine ih (poolStep12 si exec st it0) hnd.2 ?_ it hmem2
      intro it2 hit2
      have hne : it2.id ≠ it0.id := by
        intro hEq
        exact hnd.1 (hEq ▸ List.mem_map_of_mem Item12.id hit2)
      unfold skip12
      rw [hstep, lookupKey_insertKey_ne (Ne.symm hne)]
      exact hskip it2 (List.mem_cons_of_mem _ hit2)

theorem runPool12_keysNodup (si : Nat) (exec : Item12 → Rec12) :
    ∀ (P : List Item12) (st : PoolState12),
      keysNodup st.res → keysNodup (runPool12 si exec P st).res := by
  intro P
  induction P with
  | nil => intro st h; exact h
  | cons it rest ih =>
    intro st h
    unfold runPool12 at *
    simp only [List.foldl_cons]
    refine ih _ ?_
    unfold poolStep12
    by_cases hs : skip12 st.res it.id = true
    · simp [hs]; exact h
    · rw [Bool.not_eq_true] at hs
      rw [hs]
      by_cases hc : si ≤ st.counter + 1 <;>
        simp [hc, keysNodup_insertKey h]

/-! ## Lemmas about the step1.4 thread pool -/

theorem poolStep14_res_lookup_ne (si : Nat) (exec : Item14 → Rec14)
    (st : PoolState14) (it : Item14) {k : Nat} (h : it.id ≠ some k) :
    lookupKey k (poolStep14 si exec st it).res = lookupKey k st.res := by
  unfold poolStep14
  cases hid : it.id with
  | none => rfl
  | some i =>
    have hik : i ≠ k := by intro hEq; exact h (hid ▸ hEq ▸ rfl)
    by_cases hc : (insertKey i (exec it) st.res).length % si == 0 <;>
      simp [hc, lookupKey_insertKey_ne hik]

theorem runPool14_frozen (si : Nat) (exec : Item14 → Rec14) :
    ∀ (P : List Item14) (st : PoolState14) (k : Nat),
      some k ∉ P.map Item14.id →
      lookupKey k (runPool14 si exec P st).res = lookupKey k st.res := by
  intro P
  induction P with
  | nil => intro st k _; rfl
  | cons it rest ih =>
    intro st k hk
    simp only [List.map_cons, List.mem_cons] at hk
    push_neg at hk
    unfold runPool14 at *
    simp only [List.foldl_cons]
    rw [ih _ k hk.2]
    exact poolStep14_res_lookup_ne si exec st it (fun hEq => hk.1 hEq.symm)

theorem poolStep14_res_of_id (si : Nat) (exec : Item14 → Rec14)
    (st : PoolState14) (it : Item14) {i : Nat} (hid : it.id = some i) :
    (poolStep14 si exec st it).res = insertKey i (exec it) st.res := by
  unfold poolStep14
  rw [hid]
  by_cases hc : (insertKey i (exec it) st.res).length % si == 0 <;> simp [hc]

theorem runPool14_lookup (si : Nat) (exec : Item14 → Rec14) :
    ∀ (P : List Item14) (st : PoolState14),
      (P.map Item14.id).Nodup →
      ∀ it ∈ P, ∀ i : Nat, it.id = some i →
        lookupKey i (runPool14 si exec P st).res = some (exec it) := by
  intro P
  induction P with
  | nil => intro st _ it h; simp at h
  | cons it0 rest ih =>
    intro st hnd it hmem i hid
    simp only [List.map_cons, List.nodup_cons] at hnd
    rcases List.mem_cons.mp hmem with rfl | hmem2
    · unfold runPool14
      simp only [List.foldl_cons]
      rw [show List.foldl (poolStep14 si exec) (poolStep14 si exec st it) rest
            = runPool14 si exec rest (poolStep14 si exec st it) from rfl]
      rw [runPool14_frozen si exec rest _ i (hid ▸ hnd.1),
        poolStep14_res_of_id si exec st it hid, lookupKey_insertKey_self]
    · unfold runPool14
      simp only [List.foldl_cons]
      exact ih (poolStep14 si exec st it0) hnd.2 it hmem2 i hid

theorem runPool14_keysNodup (si : Nat) (exec : Item14 → Rec14) :
    ∀ (P : List Item14) (st : PoolState14),
      keysNodup st.res → keysNodup (runPool14 si exec P st).res := by
  intro P
  induction P with
  | nil => intro st h; exact h
  | cons it rest ih =>
    intro st h
    unfold runPool14 at *
    simp only [List.foldl_cons]
    refine ih _ ?_
    unfold poolStep14
    cases it.id with
    | none => exact h
    | some i =>
      by_cases hc : (insertKey i (exec it) st.res).length % si == 0 <;>
        simp [hc, keysNodup_insertKey h]

theorem runPool14_coherent (si : Nat) (exec : Item14 → Rec14) :
    ∀ (P : List Item14) (st : PoolState14),
      (∀ p ∈ st.res, (p : Nat × Rec14).2.id = p.1) →
      (∀ it ∈ P, ∀ i : Nat, it.id = some i → (exec it).id = i) →
      ∀ p ∈ (runPool14 si exec P st).res, p.2.id = p.1 := by
  intro P
  induction P with
  | nil => intro st h _ p hp; exact h p hp
  | cons it rest ih =>
    intro st h hexec
    unfold runPool14 at *
    simp only [List.foldl_cons]
    refine ih _ ?_ (fun it2 h2 => hexec it2 (List.mem_cons_of_mem _ h2))
    intro p hp
    unfold poolStep14 at hp
    cases hid : it.id with
    | none => rw [hid] at hp; exact h p hp
    | some i =>
      rw [hid] at hp
      have hp2 : p ∈ insertKey i (exec it) st.res := by
        by_cases hc : (insertKey i (exec it) st.res).length % si == 0 <;>
          simpa [hc] using hp
      rcases mem_insertKey hp2 with hin | rfl
      · exact h p hin
      · exact hexec it (List.mem_cons_self _ _) i hid

/-! ## Lemmas about the step1.6 batch mode -/

theorem chunkListGo_join {α : Type} (n : Nat) :
    ∀ (fuel : Nat) (l : List α), l.length ≤ fuel →
      (chunkListGo n fuel l).flatten = l := by
  intro fuel
  induction fuel with
  | zero =>
    intro l h
    rw [Nat.le_zero] at h
    rw [List.length_eq_zero] at h
    subst h
    rfl
  | succ fuel ih =>
    intro l h
    cases l with
    | nil => rfl
    | cons x xs =>
      simp only [chunkListGo, List.flatten_cons]
      rw [ih (xs.drop (n - 1)) ?_]
      · simp [List.cons_append, List.take_append_drop]
      · calc (xs.drop (n - 1)).length ≤ xs.length := by
              rw [List.length_drop]; omega
          _ ≤ fuel := by simpa using Nat.succ_le_succ_iff.mp h

theorem chunkList_join {α : Type} (n : Nat) (l : List α) :
    (chunkList n l).flatten = l :=
  chunkListGo_join n l.length l (Nat.le_refl _)

theorem prepare16_subset (encode : String → Except String Unit) (res : Results16) :
    ∀ (chunk : List Item16), ∀ x ∈ prepare16 encode res chunk, x ∈ chunk := by
  intro chunk
  induction chunk with
  | nil => intro x h; simp [prepare16] at h
  | cons itm rest ih =>
    intro x h
    unfold prepare16 at h
    by_cases h1 : (lookupKey itm.id res).isSome = true
    · rw [if_pos h1] at h
      exact List.mem_cons_of_mem _ (ih x h)
    · rw [if_neg h1] at h
      cases henc : encode itm.image with
      | error e =>
        rw [henc] at h
        exact List.mem_cons_of_mem _ (ih x h)
      | ok u =>
        rw [henc] at h
        rcases List.mem_cons.mp h with rfl | h2
        · exact List.mem_cons_self _ _
        · exact List.mem_cons_of_mem _ (ih x h2)

theorem prepare16_mem (encode : String → Except String Unit) (res : Results16) :
    ∀ (chunk : List Item16) (it : Item16), it ∈ chunk →
      lookupKey it.id res = none → encode it.image = .ok () →
      it ∈ prepare16 encode res chunk := by
  intro chunk
  induction chunk with
  | nil => intro it h; simp at h
  | cons itm rest ih =>
    intro it hmem hnone hok
    unfold prepare16
    rcases List.mem_cons.mp hmem with rfl | h2
    · rw [if_neg (by simp [hnone]), hok]
      exact List.mem_cons_self _ _
    · by_cases h1 : (lookupKey itm.id res).isSome = true
      · rw [if_pos h1]
        exact ih it h2 hnone hok
      · rw [if_neg h1]
        cases henc : encode itm.image with
        | error e => exact ih it h2 hnone hok
        | ok u => exact List.mem_cons_of_mem _ (ih it h2 hnone hok)

theorem applyChunk16_step_insert (outcome : Nat → BatchEntry) (res : Results16)
    (itm : Item16) :
    ∃ rec : Rec16,
      (match outcome itm.id with
        | .message txt => insertKey itm.id (parseBatchEntry16 itm.id itm.correct_answer txt) res
        | .failure err => insertKey itm.id ⟨itm.id, none, some err⟩ res)
      = insertKey itm.id rec res := by
  cases outcome itm.id with
  | message txt => exact ⟨_, rfl⟩
  | failure err => exact ⟨_, rfl⟩

theorem applyChunk16_lookup_not_mem (outcome : Nat → BatchEntry) :
    ∀ (reqs : List Item16) (res : Results16) (k : Nat),
      k ∉ reqs.map Item16.id →
      lookupKey k (applyChunk16 outcome reqs res) = lookupKey k res := by
  intro reqs
  induction reqs with
  | nil => intro res k _; rfl
  | cons itm rest ih =>
    intro res k hk
    simp only [List.map_cons, List.mem_cons] at hk
    push_neg at hk
    unfold applyChunk16 at *
    simp only [List.foldl_cons]
    rw [ih _ k hk.2]
    obtain ⟨rec, hrec⟩ := applyChunk16_step_insert outcome res itm
    rw [hrec, lookupKey_insertKey_ne (Ne.symm hk.1)]

theorem applyChunk16_isSome_mono (outcome : Nat → BatchEntry) :
    ∀ (reqs : List Item16) (res : Results16) (k : Nat),
      (lookupKey k res).isSome →
      (lookupKey k (applyChunk16 outcome reqs res)).isSome := by
  intro reqs
  induction reqs with
  | nil => intro res k h; exact h
  | cons itm rest ih =>
    intro res k h
    unfold applyChunk16 at *
    simp only [List.foldl_cons]
    refine ih _ k ?_
    obtain ⟨rec, hrec⟩ := applyChunk16_step_insert outcome res itm
    rw [hrec]
    exact lookupKey_isSome_insertKey _ _ h

theorem applyChunk16_isSome (outcome : Nat → BatchEntry) :
    ∀ (reqs : List Item16) (res : Results16) (it : Item16), it ∈ reqs →
      (lookupKey it.id (applyChunk16 outcome reqs res)).isSome := by
  intro reqs
  induction reqs with
  | nil => intro res it h; simp at h
  | cons itm rest ih =>
    intro res it hmem
    rcases List.mem_cons.mp hmem with rfl | h2
    · unfold applyChunk16
      simp only [List.foldl_cons]
      refine applyChunk16_isSome_mono outcome rest _ it.id ?_
      obtain ⟨rec, hrec⟩ := applyChunk16_step_insert outcome res it
      rw [hrec, lookupKey_insertKey_self]
      rfl
    · unfold applyChunk16 at *
      simp only [List.foldl_cons]
      exact ih _ it h2

theorem applyChunk16_keysNodup (outcome : Nat → BatchEntry) :
    ∀ (reqs : List Item16) (res : Results16),
      keysNodup res → keysNodup (applyChunk16 outcome reqs res) := by
  intro reqs
  induction reqs with
  | nil => intro res h; exact h
  | cons itm rest ih =>
    intro res h
    unfold applyChunk16 at *
    simp only [List.foldl_cons]
    refine ih _ ?_
    obtain ⟨rec, hrec⟩ := applyChunk16_step_insert outcome res itm
    rw [hrec]
    exact keysNodup_insertKey h _ _

theorem processChunks16_isSome_mono (encode : String → Except String Unit)
    (outcome : Nat → BatchEntry) (batchOk : Nat → Bool) (si : Nat) :
    ∀ (chks : List (List Item16)) (ord : Nat) (res : Results16) (saves k : Nat),
      (lookupKey k res).isSome →
      (lookupKey k (processChunks16 encode outcome batchOk si ord chks (res, saves)).1).isSome := by
  intro chks
  induction chks with
  | nil => intro ord res saves k h; exact h
  | cons chunk rest ih =>
    intro ord res saves k h
    unfold processChunks16
    by_cases hreq : (prepare16 encode res chunk).isEmpty = true
    · rw [if_pos hreq]
      exact ih _ _ _ k h
    · rw [if_neg hreq]
      refine ih _ _ _ k ?_
      by_cases hok : batchOk ord = true
      · simp only [hok, if_true]
        exact applyChunk16_isSome_mono outcome _ res k h
      · simp only [Bool.not_eq_true] at hok
        simp only [hok, Bool.false_eq_true, if_false]
        exact h

theorem processChunks16_keysNodup (encode : String → Except String Unit)
    (outcome : Nat → BatchEntry) (batchOk : Nat → Bool) (si : Nat) :
    ∀ (chks : List (List Item16)) (ord : Nat) (res : Results16) (saves : Nat),
      keysNodup res →
      keysNodup (processChunks16 encode outcome batchOk si ord chks (res, saves)).1 := by
  intro chks
  induction chks with
  | nil => intro ord res saves h; exact h
  | cons chunk rest ih =>
    intro ord res saves h
    unfold processChunks16
    by_cases hreq : (prepare16 encode res chunk).isEmpty = true
    · rw [if_pos hreq]
      exact ih _ _ _ h
    · rw [if_neg hreq]
      refine ih _ _ _ ?_
      by_cases hok : batchOk ord = true
      · simp only [hok, if_true]
        exact applyChunk16_keysNodup outcome _ res h
      · simp only [Bool.not_eq_true] at hok
        simp only [hok, Bool.false_eq_true, if_false]
        exact h

theorem processChunks16_isSome (encode : String → Except String Unit)
    (outcome : Nat → BatchEntry) (batchOk : Nat → Bool) (si : Nat)
    (hbOk : ∀ c, batchOk c = true) :
    ∀ (chks : List (List Item16)) (ord : Nat) (res : Results16) (saves : Nat),
      ((chks.flatten).map Item16.id).Nodup →
      ∀ it ∈ chks.flatten, encode it.image = .ok () → lookupKey it.id res = none →
        (lookupKey it.id
          (processChunks16 encode outcome batchOk si ord chks (res, saves)).1).isSome := by
  intro chks
  induction chks with
  | nil => intro ord res saves _ it h; simp at h
  | cons chunk rest ih =>
    intro ord res saves hnd it hmem hok hnone
    rw [List.flatten_cons] at hmem
    rw [List.flatten_cons, List.map_append] at hnd
    rw [List.nodup_append] at hnd
    unfold processChunks16
    rcases List.mem_append.mp hmem with hin | hin
    · have hreqs : it ∈ prepare16 encode res chunk :=
        prepare16_mem encode res chunk it hin hnone hok
      have hne : (prepare16 encode res chunk).isEmpty = false := by
        cases hp : prepare16 encode res chunk with
        | nil => rw [hp] at hreqs; simp at hreqs
        | cons a b => simp [List.isEmpty]
      rw [if_neg (by simp [hne])]
      simp only [hbOk ord, if_true]
      exact processChunks16_isSome_mono encode outcome batchOk si rest _ _ _ it.id
        (applyChunk16_isSome outcome _ res it hreqs)
    · by_cases hreq : (prepare16 encode res chunk).isEmpty = true
      · rw [if_pos hreq]
        exact ih _ res _ hnd.2.1 it hin hok hnone
      · rw [if_neg hreq]
        simp only [hbOk ord, if_true]
        have hid_notin : it.id ∉ (prepare16 encode res chunk).map Item16.id := by
          intro hmem2
          rcases List.mem_map.mp hmem2 with ⟨x, hx, hxid⟩
          have hxchunk := prepare16_subset encode res chunk x hx
          have : it.id ∈ chunk.map Item16.id := hxid ▸ List.mem_map_of_mem _ hxchunk
          exact hnd.2.2 this (List.mem_map_of_mem _ hin)
        refine ih _ _ _ hnd.2.1 it hin hok ?_
        rw [applyChunk16_lookup_not_mem outcome _ res it.id hid_notin]
        exact hnone

/-! ## Lemmas about checkpoint load and save -/

theorem load14_some_of_nodup {recs : List Rec14}
    (h : (recs.map Rec14.id).Nodup) :
    load14 (some recs) = recs.map (fun r => (r.id, r)) := by
  have h0 : load14 (some recs)
      = recs.foldl (fun res rec => insertKey rec.id rec res) [] := rfl
  rw [h0, foldl_insertKey_fresh Rec14.id recs [] h (by intro r _; simp)]
  rfl

theorem save14content_sorted (res : Results14) :
    List.Sorted le14 (save14content res) :=
  List.sorted_insertionSort le14 _

theorem save14content_perm (res : Results14) :
    List.Perm (save14content res) (res.map (·.2)) :=
  List.perm_insertionSort le14 _

theorem save14content_ids_nodup {res : Results14} (hnd : keysNodup res)
    (hco : ∀ p ∈ res, (p : Nat × Rec14).2.id = p.1) :
    ((save14content res).map Rec14.id).Nodup := by
  have hperm : List.Perm ((save14content res).map Rec14.id)
      ((res.map (·.2)).map Rec14.id) :=
    (save14content_perm res).map Rec14.id
  have hEq : (res.map (·.2)).map Rec14.id = res.map (·.1) := by
    rw [List.map_map]
    exact List.map_congr_left hco
  rw [hperm.nodup_iff, hEq]
  exact hnd

theorem items_to_process14_nil_res (data : List Item14) :
    items_to_process14 data [] = data := by
  unfold items_to_process14
  apply List.filter_eq_self.mpr
  intro d _
  cases d.id with
  | none => rfl
  | some i => rfl

/-- The heart of the amended idempotent-resume property: the step1.4-style
stage (same load and save path) is idempotent when every input item
carries an identifier matching the one its executor record reports and
the identifiers are pairwise distinct. -/
theorem stage14_second_run (si : Nat) (exec : Item14 → Rec14) (data : List Item14)
    (hid : ∀ it ∈ data, it.id = some (exec it).id)
    (hnd : (data.map Item14.id).Nodup) :
    stage14 si exec data (stage14 si exec data none) = stage14 si exec data none := by
  by_cases hne : data = []
  · subst hne
    rfl
  · have hpend1 : items_to_process14 data (load14 none) = data := by
      rw [show load14 none = ([] : Results14) from rfl]
      exact items_to_process14_nil_res data
    have hpne : (items_to_process14 data (load14 none)).isEmpty = false := by
      rw [hpend1]
      simp [List.isEmpty_iff, hne]
    set resF := (runPool14 si exec (items_to_process14 data (load14 none))
      ⟨load14 none, 0⟩).res with hresF
    have hfirst : stage14 si exec data none = some (save14content resF) := by
      simp only [stage14, hpne, Bool.false_eq_true, if_false]
    set L := save14content resF with hL
    have hexec2 : ∀ it ∈ data, ∀ i : Nat, it.id = some i → (exec it).id = i := by
      intro it hmem i hi
      have h := hid it hmem
      rw [hi] at h
      exact (Option.some_inj.mp h).symm
    have hcoF : ∀ p ∈ resF, (p : Nat × Rec14).2.id = p.1 := by
      rw [hresF]
      refine runPool14_coherent si exec _ _ ?_ ?_
      · intro p hp
        simp [load14] at hp
      · intro it hmem i hi
        refine hexec2 it ?_ i hi
        rw [← hpend1]
        exact hmem
    have hndF : keysNodup resF := by
      rw [hresF]
      refine runPool14_keysNodup si exec _ _ ?_
      simp [load14, keysNodup]
    have hlookF : ∀ it ∈ data, lookupKey (exec it).id resF = some (exec it) := by
      intro it hmem
      rw [hresF]
      refine runPool14_lookup si exec _ _ ?_ it ?_ (exec it).id (hid it hmem)
      · rw [hpend1]; exact hnd
      · rw [hpend1]; exact hmem
    have hndL : (L.map Rec14.id).Nodup := save14content_ids_nodup hndF hcoF
    have hload2 : load14 (some L) = L.map (fun r => (r.id, r)) :=
      load14_some_of_nodup hndL
    have hmemL : ∀ it ∈ data, (exec it).id ∈ L.map Rec14.id := by
      intro it hmem
      have h1 : ((exec it).id, exec it) ∈ resF := lookupKey_mem (hlookF it hmem)
      have h2 : exec it ∈ resF.map (·.2) :=
        List.mem_map.mpr ⟨((exec it).id, exec it), h1, rfl⟩
      have h3 : exec it ∈ L := (save14content_perm resF).mem_iff.mpr h2
      exact List.mem_map_of_mem Rec14.id h3
    have hisSome : ∀ d ∈ data, (lookupKey (exec d).id (load14 (some L))).isSome := by
      intro d hd
      rw [lookupKey_isSome_iff, hload2, List.map_map]
      have hcomp : ((fun p : Nat × Rec14 => p.1) ∘ fun r : Rec14 => (r.id, r))
          = Rec14.id := rfl
      rw [hcomp]
      exact hmemL d hd
    have hpend2 : items_to_process14 data (load14 (some L)) = [] := by
      unfold items_to_process14
      rw [List.filter_eq_nil_iff]
      intro d hd
      simp only [hid d hd]
      obtain ⟨v, hv⟩ := Option.isSome_iff_exists.mp (hisSome d hd)
      simp [hv]
    have hLne : L.map Rec14.id ≠ [] := by
      obtain ⟨d0, hd0⟩ := List.exists_mem_of_ne_nil data hne
      exact List.ne_nil_of_mem (hmemL d0 hd0)
    have hres2ne : (load14 (some L)).isEmpty = false := by
      rw [hload2]
      cases hc : L with
      | nil => rw [hc] at hLne; simp at hLne
      | cons a b => rfl
    have hsnd : (load14 (some L)).map (·.2) = L := by
      rw [hload2, List.map_map]
      have hcomp2 : ((fun x : Nat × Rec14 => x.2) ∘ fun r : Rec14 => (r.id, r))
          = id := rfl
      rw [hcomp2, List.map_id]
    rw [hfirst]
    have hsorted : List.Sorted le14 L := save14content_sorted resF
    simp only [stage14, hpend2, List.isEmpty_nil, if_true, hres2ne,
      Bool.false_eq_true, if_false]
    unfold save14content
    rw [hsnd, hsorted.insertionSort_eq]

/-! ## Lemmas about the backoff retry loop -/

theorem backoffGo_zero {A : Type} (g : String → Bool) (M : Nat)
    (call : Nat → Except String A) (dur : Nat → Nat) (n elapsed : Nat) :
    backoffGo g M call dur n elapsed 0
      = match call n with
        | .ok a => .ok a (n + 1)
        | .error e => .err e (n + 1) := rfl

theorem backoffGo_succ {A : Type} (g : String → Bool) (M : Nat)
    (call : Nat → Except String A) (dur : Nat → Nat) (n elapsed rem : Nat) :
    backoffGo g M call dur n elapsed (rem + 1)
      = match call n with
        | .ok a => .ok a (n + 1)
        | .error e =>
            if g e then .err e (n + 1)
            else if M ≤ elapsed + dur n then .err e (n + 1)
            else backoffGo g M call dur (n + 1) (elapsed + dur n + 2 ^ n) rem := rfl

theorem backoffGo_attempts {A : Type} (g : String → Bool) (M : Nat)
    (call : Nat → Except String A) (dur : Nat → Nat) :
    ∀ (remaining n elapsed : Nat),
      (backoffGo g M call dur n elapsed remaining).attempts ≤ n + remaining + 1 := by
  intro remaining
  induction remaining with
  | zero =>
    intro n elapsed
    cases hc : call n <;>
      simp [backoffGo_zero, hc, RetryOutcome.attempts]
  | succ rem ih =>
    intro n elapsed
    cases hc : call n with
    | ok a =>
      simp only [backoffGo_succ, hc, RetryOutcome.attempts]
      omega
    | error e =>
      simp only [backoffGo_succ, hc]
      by_cases hg : g e = true
      · simp only [hg, if_true, RetryOutcome.attempts]
        omega
      · rw [Bool.not_eq_true] at hg
        simp only [hg, Bool.false_eq_true, if_false]
        by_cases ht : M ≤ elapsed + dur n
        · simp only [ht, if_true, RetryOutcome.attempts]
          omega
        · rw [if_neg ht]
          calc (backoffGo g M call dur (n + 1) (elapsed + dur n + 2 ^ n) rem).attempts
              ≤ n + 1 + rem + 1 := ih (n + 1) _
            _ = n + (rem + 1) + 1 := by omega

theorem backoffGo_giveup_first {A : Type} (g : String → Bool) (M : Nat)
    (call : Nat → Except String A) (dur : Nat → Nat)
    (n elapsed remaining : Nat) (e : String)
    (hc : call n = .error e) (hg : g e = true) :
    backoffGo g M call dur n elapsed remaining = .err e (n + 1) := by
  cases remaining with
  | zero => simp [backoffGo_zero, hc]
  | succ rem => simp [backoffGo_succ, hc, hg]

theorem backoffGo_retried {A : Type} (g : String → Bool) (M : Nat)
    (call : Nat → Except String A) (dur : Nat → Nat) :
    ∀ (remaining n elapsed j : Nat),
      n ≤ j → j + 1 < (backoffGo g M call dur n elapsed remaining).attempts →
      ∃ e, call j = Except.error e ∧ g e = false ∧
        elapsed + elapsedAcc dur n (j - n) + dur j < M := by
  intro remaining
  induction remaining with
  | zero =>
    intro n elapsed j hnj hlt
    exfalso
    cases hc : call n <;> rw [backoffGo_zero] at hlt <;>
      simp only [hc, RetryOutcome.attempts] at hlt <;> omega
  | succ rem ih =>
    intro n elapsed j hnj hlt
    cases hc : call n with
    | ok a =>
      exfalso
      simp only [backoffGo_succ, hc, RetryOutcome.attempts] at hlt
      omega
    | error e =>
      simp only [backoffGo_succ, hc] at hlt
      by_cases hg : g e = true
      · exfalso
        simp only [hg, if_true, RetryOutcome.attempts] at hlt
        omega
      · rw [Bool.not_eq_true] at hg
        simp only [hg, Bool.false_eq_true, if_false] at hlt
        by_cases ht : M ≤ elapsed + dur n
        · exfalso
          simp only [ht, if_true, RetryOutcome.attempts] at hlt
          omega
        · rw [if_neg ht] at hlt
          by_cases hj : j = n
          · subst hj
            refine ⟨e, hc, hg, ?_⟩
            rw [Nat.sub_self]
            simpa [elapsedAcc] using Nat.lt_of_not_le ht
          · have hnj2 : n + 1 ≤ j := by omega
            obtain ⟨e2, hc2, hg2, hlt2⟩ := ih (n + 1) (elapsed + dur n + 2 ^ n) j hnj2 hlt
            refine ⟨e2, hc2, hg2, ?_⟩
            rw [show j - n = (j - (n + 1)) + 1 from by omega]
            rw [show elapsedAcc dur n ((j - (n + 1)) + 1)
                = dur n + 2 ^ n + elapsedAcc dur (n + 1) (j - (n + 1)) from rfl]
            omega

theorem backoffGo_err {A : Type} (g : String → Bool) (M : Nat)
    (call : Nat → Except String A) (dur : Nat → Nat) :
    ∀ (remaining n elapsed : Nat) (e : String) (a : Nat),
      backoffGo g M call dur n elapsed remaining = .err e a →
      ∃ j, call j = Except.error e := by
  intro remaining
  induction remaining with
  | zero =>
    intro n elapsed e a h
    cases hc : call n with
    | ok v =>
      simp only [backoffGo_zero, hc] at h
      exact RetryOutcome.noConfusion h
    | error e2 =>
      simp only [backoffGo_zero, hc, RetryOutcome.err.injEq] at h
      exact ⟨n, by rw [hc, h.1]⟩
  | succ rem ih =>
    intro n elapsed e a h
    cases hc : call n with
    | ok v =>
      simp only [backoffGo_succ, hc] at h
      exact RetryOutcome.noConfusion h
    | error e2 =>
      simp only [backoffGo_succ, hc] at h
      by_cases hg : g e2 = true
      · simp only [hg, if_true, RetryOutcome.err.injEq] at h
        exact ⟨n, by rw [hc, h.1]⟩
      · rw [Bool.not_eq_true] at hg
        simp only [hg, Bool.false_eq_true, if_false] at h
        by_cases ht : M ≤ elapsed + dur n
        · simp only [ht, if_true, RetryOutcome.err.injEq] at h
          exact ⟨n, by rw [hc, h.1]⟩
        · rw [if_neg ht] at h
          exact ih _ _ e a h

theorem backoffGo_ok {A : Type} (g : String → Bool) (M : Nat)
    (call : Nat → Except String A) (dur : Nat → Nat) :
    ∀ (remaining n elapsed : Nat) (r : A) (a : Nat),
      backoffGo g M call dur n elapsed remaining = .ok r a →
      ∃ j, call j = Except.ok r := by
  intro remaining
  induction remaining with
  | zero =>
    intro n elapsed r a h
    cases hc : call n with
    | ok v =>
      simp only [backoffGo_zero, hc, RetryOutcome.ok.injEq] at h
      exact ⟨n, by rw [hc, h.1]⟩
    | error e2 =>
      simp only [backoffGo_zero, hc] at h
      exact RetryOutcome.noConfusion h
  | succ rem ih =>
    intro n elapsed r a h
    cases hc : call n with
    | ok v =>
      simp only [backoffGo_succ, hc, RetryOutcome.ok.injEq] at h
      exact ⟨n, by rw [hc, h.1]⟩
    | error e2 =>
      simp only [backoffGo_succ, hc] at h
      by_cases hg : g e2 = true
      · simp only [hg, if_true] at h
        exact RetryOutcome.noConfusion h
      · rw [Bool.not_eq_true] at hg
        simp only [hg, Bool.false_eq_true, if_false] at h
        by_cases ht : M ≤ elapsed + dur n
        · simp only [ht, if_true] at h
          exact RetryOutcome.noConfusion h
        · rw [if_neg ht] at h
          exact ih _ _ r a h

/-! ## Lemmas about the executors and parsers -/

theorem translate_item_exec_shape (it : Item12) (o : Except String String) :
    (translate_item_exec it o).id = it.id
      ∧ resolved12 (translate_item_exec it o) = true := by
  cases o <;> simp [translate_item_exec, resolved12]

theorem execute12_shape (it : Item12) (call : Nat → Except String String)
    (dur : Nat → Nat) :
    (execute12 it call dur).id = it.id
      ∧ resolved12 (execute12 it call dur) = true :=
  translate_item_exec_shape it (translate_with_retry call dur).toExcept

theorem analyzeOnce14_error {pid : Nat} {c : String} {cr : Except String String}
    {e : String} (h : analyzeOnce14 pid c cr = .error e) :
    cr = Except.error e ∧ containsSub "rate_limit_error" e = true := by
  cases cr with
  | ok s =>
    simp only [analyzeOnce14] at h
    exact Except.noConfusion h
  | error e2 =>
    simp only [analyzeOnce14] at h
    by_cases hrl : containsSub "rate_limit_error" e2 = true
    · rw [if_pos hrl] at h
      have he : e2 = e := Except.error.inj h
      subst he
      exact ⟨rfl, hrl⟩
    · rw [if_neg hrl] at h
      exact Except.noConfusion h

theorem analyzeOnce14_ok {pid : Nat} {c : String} {cr : Except String String}
    {r : Rec14} (h : analyzeOnce14 pid c cr = .ok r) :
    r.id = pid ∧ resolved14 r = true := by
  cases cr with
  | ok s =>
    simp only [analyzeOnce14, Except.ok.injEq] at h
    rw [← h]
    exact ⟨rfl, by simp [resolved14]⟩
  | error e2 =>
    simp only [analyzeOnce14] at h
    by_cases hrl : containsSub "rate_limit_error" e2 = true
    · rw [if_pos hrl] at h
      exact Except.noConfusion h
    · rw [if_neg hrl] at h
      have h2 := Except.ok.inj h
      rw [← h2]
      exact ⟨rfl, by simp [resolved14]⟩

/-! ## Lemmas about the step1.2 save -/

theorem save12content_sorted (res : Results12) :
    List.Sorted le12 (save12content res) :=
  List.sorted_insertionSort le12 _

theorem save12content_perm (res : Results12) :
    List.Perm (save12content res) ((res.map (·.2)).filter (fun r => r.id.isSome)) :=
  List.perm_insertionSort le12 _

theorem save12content_ids_nodup {res : Results12} (hnd : keysNodup res)
    (hco : ∀ p ∈ res, (p : Option Nat × Rec12).2.id = p.1) :
    ((save12content res).map Rec12.id).Nodup := by
  have hperm : List.Perm ((save12content res).map Rec12.id)
      (((res.map (·.2)).filter (fun r => r.id.isSome)).map Rec12.id) :=
    (save12content_perm res).map Rec12.id
  rw [hperm.nodup_iff]
  have hsub : ((res.map (·.2)).filter (fun r => r.id.isSome)).map Rec12.id
      |>.Sublist ((res.map (·.2)).map Rec12.id) :=
    (List.filter_sublist _).map Rec12.id
  have hEq : (res.map (·.2)).map Rec12.id = res.map (·.1) := by
    rw [List.map_map]
    exact List.map_congr_left hco
  refine hsub.nodup ?_
  rw [hEq]
  exact hnd

/-! ## Completion of the two coordinator strategies -/

theorem runPool12_complete (si : Nat) (exec : Item12 → Rec12)
    (data : List Item12) (res0 : Results12) (hnd0 : keysNodup res0)
    (hndP : ((items_to_process12 data res0).map Item12.id).Nodup) :
    ∀ it ∈ items_to_process12 data res0,
      lookupKey it.id (runPool12 si exec (items_to_process12 data res0)
          ⟨res0, 0, 0⟩).res = some (exec it)
      ∧ countKey it.id (runPool12 si exec (items_to_process12 data res0)
          ⟨res0, 0, 0⟩).res = 1 := by
  intro it hmem
  have hskip : ∀ it2 ∈ items_to_process12 data res0, skip12 res0 it2.id = false := by
    intro it2 h2
    have h3 := List.mem_filter.mp h2
    simpa using h3.2
  have hlook := runPool12_lookup si exec (items_to_process12 data res0)
    ⟨res0, 0, 0⟩ hndP hskip it hmem
  have hnodF : keysNodup (runPool12 si exec (items_to_process12 data res0)
      ⟨res0, 0, 0⟩).res :=
    runPool12_keysNodup si exec _ _ hnd0
  exact ⟨hlook, countKey_eq_one_of_lookup hnodF (by rw [hlook]; rfl)⟩

theorem process_batch16_complete (encode : String → Except String Unit)
    (outcome : Nat → BatchEntry) (batchOk : Nat → Bool) (bs si : Nat)
    (items : List Item16) (res0 : Results16) (hnd0 : keysNodup res0)
    (hndI : (items.map Item16.id).Nodup) (hbOk : ∀ c, batchOk c = true) :
    ∀ it ∈ items, lookupKey it.id res0 = none → encode it.image = .ok () →
      (lookupKey it.id
        (process_batch16 encode outcome batchOk bs si items res0).1).isSome
      ∧ countKey it.id
        (process_batch16 encode outcome batchOk bs si items res0).1 = 1 := by
  intro it hmem hnone hok
  have hmemT : it ∈ items.filter (fun x => (lookupKey x.id res0).isNone) :=
    List.mem_filter.mpr ⟨hmem, by rw [hnone]; rfl⟩
  have hTne : (items.filter (fun x => (lookupKey x.id res0).isNone)).isEmpty = false := by
    cases hc : items.filter (fun x => (lookupKey x.id res0).isNone) with
    | nil => rw [hc] at hmemT; exact absurd hmemT (List.not_mem_nil it)
    | cons a b => rfl
  have hstep : process_batch16 encode outcome batchOk bs si items res0
      = ((processChunks16 encode outcome batchOk si 1
          (chunkList bs (items.filter (fun x => (lookupKey x.id res0).isNone)))
          (res0, 0)).1,
         (processChunks16 encode outcome batchOk si 1
          (chunkList bs (items.filter (fun x => (lookupKey x.id res0).isNone)))
          (res0, 0)).2 + 1) := by
    simp [process_batch16, hTne]
  rw [hstep]
  have hndT : ((items.filter (fun x => (lookupKey x.id res0).isNone)).map
      Item16.id).Nodup :=
    ((List.filter_sublist items).map Item16.id).nodup hndI
  have hndflat : (((chunkList bs (items.filter
      (fun x => (lookupKey x.id res0).isNone))).flatten).map Item16.id).Nodup := by
    rw [chunkList_join]
    exact hndT
  have hmemflat : it ∈ (chunkList bs (items.filter
      (fun x => (lookupKey x.id res0).isNone))).flatten := by
    rw [chunkList_join]
    exact hmemT
  have hS := processChunks16_isSome encode outcome batchOk si hbOk
    (chunkList bs (items.filter (fun x => (lookupKey x.id res0).isNone)))
    1 res0 0 hndflat it hmemflat hok hnone
  have hN := processChunks16_keysNodup encode outcome batchOk si
    (chunkList bs (items.filter (fun x => (lookupKey x.id res0).isNone)))
    1 res0 0 hnd0
  exact ⟨hS, countKey_eq_one_of_lookup hN hS⟩

/-! ## Claim C1: the Resume/Dedup Planner -/

/-- Claim C1 is false as stated: in step1.4 (`step1.4:233`) an item is
skipped whenever *any* record for its identifier exists, even one that
carries neither a success nor a failure payload, whereas the claim
requires such an item to be scheduled. Concrete input: one item with id 1
and a checkpoint holding a payload-free record for id 1. -/
theorem C1_counterexample :
    items_to_process14 [{ id := some 1 }] [(1, { id := 1 })]
      ≠ specPending14 [{ id := some 1 }] [(1, { id := 1 })] := by
  decide

/-- Claim C1 (amended): in step1.2 the pending subset is exactly the input
items, in input order, whose identifier does not map to a resolved record
(resolved = success or failure payload present); in step1.4 the pending
subset is the items whose identifier has *no* record at all, which agrees
with the resolved-record formulation exactly when every checkpoint record
is resolved (as is the case for every record this pipeline itself
writes). -/
theorem C1_theorem :
    (∀ (data : List Item12) (results : Results12),
      items_to_process12 data results = specPending12 data results)
    ∧ (∀ (data : List Item14) (results : Results14),
        (∀ p ∈ results, resolved14 (p : Nat × Rec14).2 = true) →
        items_to_process14 data results = specPending14 data results) := by
  constructor
  · intro data results
    rfl
  · intro data results hres
    unfold items_to_process14 specPending14
    apply List.filter_congr
    intro d hd
    cases hdid : d.id with
    | none => simp [hdid]
    | some i =>
      simp only [hdid]
      cases hl : lookupKey i results with
      | none => simp [hl]
      | some r =>
        have hr : resolved14 r = true := hres (i, r) (lookupKey_mem hl)
        simp [hl, hr]

/-- Witness for the amended C1 at a concrete resolved checkpoint. -/
theorem C1_witness :
    items_to_process14 [{ id := some 3 }] [(3, { id := 3, error := some "boom" })]
      = specPending14 [{ id := some 3 }] [(3, { id := 3, error := some "boom" })] :=
  C1_theorem.2 _ _ (by decide)

/-! ## Claim C3: final save on an empty pending subset -/

/-- Claim C3 is false as stated: when every input identifier already has a
record, the step1.6 batch stage returns without performing any save
(`step1.6:162-165`), so the run performs zero saves rather than the
claimed final save. -/
theorem C3_counterexample :
    ¬ 1 ≤ (process_batch16 (fun _ => Except.ok ()) (fun _ => BatchEntry.message "m")
      (fun _ => true) 20 20 [{ id := 1 }]
      [(1, { id := 1, error := some "done" })]).2 := by
  decide

/-- Claim C3 (amended): step1.2 performs its final save unconditionally,
also on an empty pending subset (`step1.2:329`); the batch stages
step1.6 (`step1.6:162-165`) and step1.8 (`step1.8:144-147`) return with
*no* save at all when the pending subset is empty, leaving the results
dictionary as loaded and the file untouched. -/
theorem C3_theorem :
    (∀ (si : Nat) (exec : Item12 → Rec12) (data : List Item12) (fs : FS12),
      1 ≤ (run12 si exec data fs).2)
    ∧ (∀ (encode : String → Except String Unit) (outcome : Nat → BatchEntry)
        (batchOk : Nat → Bool) (bs si : Nat) (items : List Item16) (res0 : Results16),
        (items.filter (fun x => (lookupKey x.id res0).isNone)).isEmpty = true →
        (process_batch16 encode outcome batchOk bs si items res0).2 = 0
          ∧ (process_batch16 encode outcome batchOk bs si items res0).1 = res0)
    ∧ (∀ (encode : String → Except String Unit) (outcome : Nat → BatchEntry)
        (batchOk : Nat → Bool) (bs si : Nat) (items : List Item16) (res0 : Results18),
        (items.filter (fun x => (lookupKey x.id res0).isNone)).isEmpty = true →
        (process18 encode outcome batchOk bs si items res0).2 = 0
          ∧ (process18 encode outcome batchOk bs si items res0).1 = res0) := by
  refine ⟨?_, ?_, ?_⟩
  · intro si exec data fs
    simp [run12]
  · intro encode outcome batchOk bs si items res0 h
    constructor <;> simp [process_batch16, h]
  · intro encode outcome batchOk bs si items res0 h
    constructor <;> simp [process18, h]

/-- Witness for the amended C3 at concrete inputs. -/
theorem C3_witness :
    1 ≤ (run12 5 (fun it => { id := it.id }) [] ⟨none, none⟩).2
    ∧ (process_batch16 (fun _ => Except.ok ()) (fun _ => BatchEntry.message "m")
        (fun _ => true) 4 4 [{ id := 2 }]
        [(2, { id := 2, error := some "x" })]).2 = 0 :=
  ⟨C3_theorem.1 5 _ [] ⟨none, none⟩,
   (C3_theorem.2.1 _ _ _ 4 4 _ _ (by decide)).1⟩

/-! ## Claim C9: the periodic-save trigger -/

/-- Claim C9 is false as stated: in step1.4 the save trigger is
`len(self.results) % save_interval == 0` on the *total* size of the
results dictionary (`step1.4:252`), not a counter of completions since
the last save. With save interval 2 and one record preloaded, a save
fires after a single completion, though only one completion has happened
since the last save; moreover the `_save` call runs after the locked
section, not inside it. -/
theorem C9_counterexample :
    (poolStep14 2 (fun it => { id := it.id.getD 0, error := some "e" })
      ⟨[(5, { id := 5, error := some "old" })], 0⟩ { id := some 1 }).saves = 1
    ∧ ¬ 2 ≤ 0 + 1 := by
  constructor
  · rfl
  · decide

/-- Claim C9 (amended): in step1.2 the worker increments the
completions-since-last-save counter inside the locked section, triggers
the saver exactly when the counter reaches the save interval, and the
counter is reset to zero by a save and kept otherwise (`step1.2:258-262`;
note the saver then re-acquires the same non-reentrant lock, so the
nested acquisition of `step1.2:195` self-deadlocks when the trigger
fires). In step1.4 the trigger instead fires exactly when the total size
of the results dictionary is divisible by the save interval, computed
inside the lock while `_save` itself runs after it (`step1.4:244-256`). -/
theorem C9_theorem :
    (∀ (si : Nat) (exec : Item12 → Rec12) (st : PoolState12) (it : Item12),
      skip12 st.res it.id = false →
      ((poolStep12 si exec st it).saves = st.saves + 1 ↔ si ≤ st.counter + 1)
      ∧ (si ≤ st.counter + 1 → (poolStep12 si exec st it).counter = 0)
      ∧ (¬ si ≤ st.counter + 1 →
          (poolStep12 si exec st it).counter = st.counter + 1))
    ∧ (∀ (si : Nat) (exec : Item14 → Rec14) (st : PoolState14) (it : Item14) (i : Nat),
        it.id = some i →
        ((poolStep14 si exec st it).saves = st.saves + 1
          ↔ ((insertKey i (exec it) st.res).length % si == 0) = true)) := by
  constructor
  · intro si exec st it h
    have hstep : poolStep12 si exec st it
        = if si ≤ st.counter + 1 then
            ⟨insertKey it.id (exec it) st.res, 0, st.saves + 1⟩
          else ⟨insertKey it.id (exec it) st.res, st.counter + 1, st.saves⟩ := by
      unfold poolStep12
      rw [h]
      simp
    rw [hstep]
    by_cases hc : si ≤ st.counter + 1
    · rw [if_pos hc]
      exact ⟨iff_of_true rfl hc, fun _ => rfl, fun h2 => absurd hc h2⟩
    · rw [if_neg hc]
      exact ⟨iff_of_false (by simp) hc, fun h2 => absurd h2 hc, fun _ => rfl⟩
  · intro si exec st it i hid
    have hstep : poolStep14 si exec st it
        = if ((insertKey i (exec it) st.res).length % si == 0) = true then
            ⟨insertKey i (exec it) st.res, st.saves + 1⟩
          else ⟨insertKey i (exec it) st.res, st.saves⟩ := by
      unfold poolStep14
      rw [hid]
    rw [hstep]
    by_cases hc : ((insertKey i (exec it) st.res).length % si == 0) = true
    · rw [if_pos hc]
      exact iff_of_true rfl hc
    · rw [if_neg hc]
      exact iff_of_false (by simp) hc

/-- Witness for the amended C9 at concrete inputs. -/
theorem C9_witness :
    (poolStep12 2 (fun _ => { id := some 7 }) ⟨[], 0, 0⟩ { id := some 7 }).counter
      = 0 + 1
    ∧ ((poolStep14 2 (fun _ => { id := 8 }) ⟨[], 0⟩ { id := some 8 }).saves = 0 + 1
        ↔ ((insertKey 8 { id := 8 } ([] : Results14)).length % 2 == 0) = true) :=
  ⟨(C9_theorem.1 2 _ ⟨[], 0, 0⟩ { id := some 7 } (by decide)).2.2 (by decide),
   C9_theorem.2 2 _ ⟨[], 0⟩ { id := some 8 } 8 (by decide)⟩

/-! ## Claim C10: credential selection in the batch stages -/

/-- Claim C10: the step1.6 and step1.8 constructors ignore their
`api_key` parameter entirely; whatever value (including `None`) is
passed, the API client is built with the module-level
`Anthropic_API_KEY` (`step1.6:60`, `step1.8:72`), so `--api_key` has no
effect on the credential used by the batch stages. Confirmed. -/
theorem C10_theorem :
    ∀ (k1 k2 : Option String) (m : String),
      batchExtractorInitClient k1 m = batchExtractorInitClient k2 m
      ∧ (batchExtractorInitClient k1 m).apiKey = m
      ∧ puzzleClassifierInitClient k1 m = puzzleClassifierInitClient k2 m
      ∧ (puzzleClassifierInitClient k1 m).apiKey = m :=
  fun _ _ _ => ⟨rfl, rfl, rfl, rfl⟩

/-! ## Claim C2: every pending item yields exactly one ResultRecord -/

/-- Claim C2 is false as stated for the provider batch strategy: in
step1.6 an item whose image fails to encode is skipped with a log line
and receives no record (`step1.6:137-140`). Concretely, the single
pending item (id 1) ends the run with zero records although the run
reached its normal end. -/
theorem C2_counterexample :
    lookupKey 1 (process_batch16 (fun _ => Except.error "Image not found")
      (fun _ => BatchEntry.message "x") (fun _ => true) 20 20
      [{ id := 1, image := "img.png" }] []).1 = none
    ∧ [({ id := 1, image := "img.png" } : Item16)].filter
        (fun x => (lookupKey x.id ([] : Results16)).isNone)
        = [({ id := 1, image := "img.png" } : Item16)] := by
  exact ⟨rfl, rfl⟩

/-- Claim C2 (amended): in the thread-pool strategy (step1.2, distinct
identifiers) every pending item ends the run with exactly one record,
stored under its identifier and carrying a success or a failure payload.
In the provider batch strategy (step1.6) the guarantee holds only for
pending items whose image encodes successfully and whose batch
submissions all succeed; an encode failure (or a chunk-level batch error)
leaves an item with no record. -/
theorem C2_theorem :
    (∀ (si : Nat) (callOf : Item12 → Nat → Except String String)
        (durOf : Item12 → Nat → Nat) (data : List Item12) (res0 : Results12),
      keysNodup res0 →
      ((items_to_process12 data res0).map Item12.id).Nodup →
      ∀ it ∈ items_to_process12 data res0,
        lookupKey it.id (runPool12 si
            (fun i2 => execute12 i2 (callOf i2) (durOf i2))
            (items_to_process12 data res0) ⟨res0, 0, 0⟩).res
          = some (execute12 it (callOf it) (durOf it))
        ∧ countKey it.id (runPool12 si
            (fun i2 => execute12 i2 (callOf i2) (durOf i2))
            (items_to_process12 data res0) ⟨res0, 0, 0⟩).res = 1
        ∧ resolved12 (execute12 it (callOf it) (durOf it)) = true)
    ∧ (∀ (encode : String → Except String Unit) (outcome : Nat → BatchEntry)
        (batchOk : Nat → Bool) (bs si : Nat) (items : List Item16)
        (res0 : Results16),
        keysNodup res0 → (items.map Item16.id).Nodup →
        (∀ c, batchOk c = true) →
        ∀ it ∈ items, lookupKey it.id res0 = none → encode it.image = .ok () →
          (lookupKey it.id
            (process_batch16 encode outcome batchOk bs si items res0).1).isSome
          ∧ countKey it.id
            (process_batch16 encode outcome batchOk bs si items res0).1 = 1) := by
  constructor
  · intro si callOf durOf data res0 hnd0 hndP it hmem
    have h := runPool12_complete si (fun i2 => execute12 i2 (callOf i2) (durOf i2))
      data res0 hnd0 hndP it hmem
    exact ⟨h.1, h.2, (execute12_shape it (callOf it) (durOf it)).2⟩
  · intro encode outcome batchOk bs si items res0 hnd0 hndI hbOk it hmem hnone hok
    exact process_batch16_complete encode outcome batchOk bs si items res0
      hnd0 hndI hbOk it hmem hnone hok

/-- Witness for the amended C2: one concrete item through each strategy. -/
theorem C2_witness :
    lookupKey (some 1) (runPool12 10
        (fun i2 => execute12 i2 (fun _ => Except.ok "resp") (fun _ => 0))
        (items_to_process12 [{ id := some 1 }] []) ⟨[], 0, 0⟩).res
      = some (execute12 { id := some 1 } (fun _ => Except.ok "resp") (fun _ => 0))
    ∧ (lookupKey 4 (process_batch16 (fun _ => Except.ok ())
        (fun _ => BatchEntry.message "m") (fun _ => true) 3 3
        [{ id := 4 }] []).1).isSome :=
  ⟨(C2_theorem.1 10 (fun _ _ => Except.ok "resp") (fun _ _ => 0)
      [{ id := some 1 }] [] (by decide) (by decide) { id := some 1 } (by decide)).1,
   (C2_theorem.2 (fun _ => Except.ok ()) (fun _ => BatchEntry.message "m")
      (fun _ => true) 3 3 [{ id := 4 }] [] (by decide) (by decide)
      (fun _ => rfl) { id := 4 } (by decide) rfl rfl).1⟩

/-! ## Claim C4: idempotent resume -/

/-- Claim C4 is false as stated for step1.2: the checkpoint is loaded
from the intermediate path but at shutdown the intermediate file is
renamed onto the output path (`step1.2:328-332`), so after a run the load
path holds nothing, a second run schedules the whole input again, and
with a fresh remote call it can emit different output content. -/
theorem C4_counterexample :
    (run12 100 (fun it => { id := it.id, translation := some "a" })
      [{ id := some 1 }] ⟨none, none⟩).1.interFile = none
    ∧ items_to_process12 [{ id := some 1 }]
        (load12 (run12 100 (fun it => { id := it.id, translation := some "a" })
          [{ id := some 1 }] ⟨none, none⟩).1.interFile)
        = [({ id := some 1 } : Item12)]
    ∧ (run12 100 (fun it => { id := it.id, translation := some "b" })
        [{ id := some 1 }]
        (run12 100 (fun it => { id := it.id, translation := some "a" })
          [{ id := some 1 }] ⟨none, none⟩).1).1.outFile
      ≠ (run12 100 (fun it => { id := it.id, translation := some "a" })
          [{ id := some 1 }] ⟨none, none⟩).1.outFile := by
  refine ⟨rfl, by decide, by decide⟩

/-- Claim C4 (amended): for the stages whose load path and save path are
the same file (step1.4 and the batch stages), a second run on unchanged
input loads the prior output, finds every identifier resolved, and
re-emits an identical checkpoint file, provided the input identifiers are
present, pairwise distinct and reported unchanged by the executor.
Step1.2 does not close this loop: its run always ends with the load
(intermediate) path removed by the rename, so the next run starts from
scratch. -/
theorem C4_theorem :
    (∀ (si : Nat) (exec : Item14 → Rec14) (data : List Item14),
      (∀ it ∈ data, it.id = some (exec it).id) →
      (data.map Item14.id).Nodup →
      stage14 si exec data (stage14 si exec data none) = stage14 si exec data none)
    ∧ (∀ (si : Nat) (exec : Item12 → Rec12) (data : List Item12) (fs : FS12),
        (run12 si exec data fs).1.interFile = none) := by
  constructor
  · intro si exec data h1 h2
    exact stage14_second_run si exec data h1 h2
  · intro si exec data fs
    simp [run12]

/-- Witness for the amended C4 at a concrete two-item input. -/
theorem C4_witness :
    stage14 5 (fun it => { id := it.id.getD 0, error := some "x" })
        [{ id := some 1 }, { id := some 2 }]
        (stage14 5 (fun it => { id := it.id.getD 0, error := some "x" })
          [{ id := some 1 }, { id := some 2 }] none)
      = stage14 5 (fun it => { id := it.id.getD 0, error := some "x" })
          [{ id := some 1 }, { id := some 2 }] none :=
  C4_theorem.1 5 _ [{ id := some 1 }, { id := some 2 }] (by decide) (by decide)

/-! ## Claim C5: bounded exponential-backoff retry -/

/-- Claim C5: the retried remote call makes at most 8 attempts; a failure
the `giveup` predicate rejects (not classified as a rate-limit condition
by matching the lowercased error text) is re-raised immediately after the
first attempt with no retry; every retried attempt had failed with a
rate-limit-classified error and happened strictly inside the 300-second
wall-clock budget; in step1.4 (whose decorator has no `giveup`) every
retried attempt likewise failed with a rate-limit error, since only those
are re-raised into the decorator. Confirmed. -/
theorem C5_theorem :
    (∀ (call : Nat → Except String String) (dur : Nat → Nat),
      (translate_with_retry call dur).attempts ≤ 8)
    ∧ (∀ (call : Nat → Except String String) (dur : Nat → Nat) (e : String),
        call 0 = Except.error e → giveup12 e = true →
        translate_with_retry call dur = .err e 1)
    ∧ (∀ (call : Nat → Except String String) (dur : Nat → Nat) (j : Nat),
        j + 1 < (translate_with_retry call dur).attempts →
        ∃ e, call j = Except.error e
          ∧ containsSub "rate_limit_error" (toLowerStr e) = true
          ∧ elapsedAcc dur 0 j + dur j < 300)
    ∧ (∀ (pid : Nat) (c : String) (call : Nat → Except String String)
        (dur : Nat → Nat) (j : Nat),
        j + 1 < (analyze_puzzle14 pid c call dur).attempts →
        ∃ e, call j = Except.error e ∧ containsSub "rate_limit_error" e = true) := by
  refine ⟨?_, ?_, ?_, ?_⟩
  · intro call dur
    exact backoffGo_attempts giveup12 300 call dur 7 0 0
  · intro call dur e hc hg
    exact backoffGo_giveup_first giveup12 300 call dur 0 0 7 e hc hg
  · intro call dur j hj
    obtain ⟨e, hc, hg, hel⟩ := backoffGo_retried giveup12 300 call dur 7 0 0 j
      (Nat.zero_le j) hj
    refine ⟨e, hc, ?_, ?_⟩
    · unfold giveup12 at hg
      cases hb : containsSub "rate_limit_error" (toLowerStr e) with
      | false => rw [hb] at hg; simp at hg
      | true => rfl
    · rw [Nat.sub_zero] at hel
      omega
  · intro pid c call dur j hj
    obtain ⟨e, hc, hg, hel⟩ := backoffGo_retried (fun _ => false) 300
      (fun n => analyzeOnce14 pid c (call n)) dur 7 0 0 j (Nat.zero_le j) hj
    obtain ⟨hcall, hrl⟩ := analyzeOnce14_error hc
    exact ⟨e, hcall, hrl⟩

/-- Witness for C5: a non-rate-limit failure is surfaced after exactly
one attempt, with no retry. -/
theorem C5_witness :
    translate_with_retry (fun _ => (Except.error "boom" : Except String String))
      (fun _ => 0) = .err "boom" 1 :=
  C5_theorem.2.1 (fun _ => (Except.error "boom" : Except String String))
    (fun _ => 0) "boom" rfl (by decide)

/-! ## Claim C6: the unit of work never raises past its boundary -/

/-- Claim C6 is false as stated for step1.4: a rate-limit error is
re-raised by the `except` clause of `analyze_puzzle` (`step1.4:203-204`),
and once the backoff decorator exhausts its 8 attempts the exception
propagates to the caller instead of becoming a failure record — here the
unit of work for item 1 raises after 8 attempts and stores nothing. -/
theorem C6_counterexample :
    analyze_puzzle14 1 "" (fun _ => Except.error "rate_limit_error") (fun _ => 0)
      = .err "rate_limit_error" 8 := by
  decide

/-- Claim C6 (amended): the step1.2 unit of work is total and always
returns a record carrying the item's identifier and a success or failure
payload, converting every exception, including retry exhaustion
(`step1.2:264-273`). The step1.4 unit of work converts every exception
except rate-limit conditions: whatever it raises past its boundary
contains `"rate_limit_error"`, and whenever it returns a record that
record carries the item's identifier and a payload. -/
theorem C6_theorem :
    (∀ (it : Item12) (call : Nat → Except String String) (dur : Nat → Nat),
      (execute12 it call dur).id = it.id
        ∧ resolved12 (execute12 it call dur) = true)
    ∧ (∀ (pid : Nat) (c : String) (call : Nat → Except String String)
        (dur : Nat → Nat) (e : String) (a : Nat),
        analyze_puzzle14 pid c call dur = .err e a →
        containsSub "rate_limit_error" e = true)
    ∧ (∀ (pid : Nat) (c : String) (call : Nat → Except String String)
        (dur : Nat → Nat) (r : Rec14) (a : Nat),
        analyze_puzzle14 pid c call dur = .ok r a →
        r.id = pid ∧ resolved14 r = true) := by
  refine ⟨?_, ?_, ?_⟩
  · intro it call dur
    exact execute12_shape it call dur
  · intro pid c call dur e a h
    obtain ⟨j, hj⟩ := backoffGo_err (fun _ => false) 300
      (fun n => analyzeOnce14 pid c (call n)) dur 7 0 0 e a h
    exact (analyzeOnce14_error hj).2
  · intro pid c call dur r a h
    obtain ⟨j, hj⟩ := backoffGo_ok (fun _ => false) 300
      (fun n => analyzeOnce14 pid c (call n)) dur 7 0 0 r a h
    exact analyzeOnce14_ok hj

/-- Witness for the amended C6 at a concrete exhausted retry. -/
theorem C6_witness :
    containsSub "rate_limit_error" "rate_limit_error" = true :=
  C6_theorem.2.1 1 "" (fun _ => Except.error "rate_limit_error") (fun _ => 0)
    "rate_limit_error" 8 (by decide)

/-! ## Claim C7: tag-fallback parsing -/

/-- Claim C7 is false as stated for step1.4: when the `<answer>` and
`<reasoning>` tags are absent the parsed fields fall back to the empty
string (with the raw text kept in a separate `raw_response` field) and no
warning is printed (`step1.4:196-199`), not to the entire stripped
response as the claim requires — `"Paris"` stripped is `"Paris"`, yet the
extracted answer is `""`. -/
theorem C7_counterexample :
    analyzeOnce14 1 "" (Except.ok "Paris")
      = Except.ok ⟨1, some ⟨"", "", "", "Paris"⟩, none⟩
    ∧ trimChars "Paris" = "Paris"
    ∧ ("" : String) ≠ "Paris" := by
  refine ⟨rfl, rfl, by decide⟩

/-- Claim C7 (amended): in step1.2 the parse of a successful response is
total and falls back to the entire stripped response, with a warning,
exactly when the tag pair is absent (`step1.2:248-256`); in step1.4 the
parse of a successful response is total and never raises, but the
extracted fields fall back to the empty string, the raw response being
carried in its own field, with no warning. -/
theorem C7_theorem :
    (∀ (s t : String),
      extractTagContent "<translated_explanation>" "</translated_explanation>" s
        = some t →
      parseTranslation s = (t, false))
    ∧ (∀ s : String,
        extractTagContent "<translated_explanation>" "</translated_explanation>" s
          = none →
        parseTranslation s = (trimChars s, true))
    ∧ (∀ (pid : Nat) (c s : String),
        analyzeOnce14 pid c (Except.ok s)
          = Except.ok ⟨pid, some ⟨c,
              (extractTagContent "<reasoning>" "</reasoning>" s).getD "",
              (extractTagContent "<answer>" "</answer>" s).getD "", s⟩, none⟩) := by
  refine ⟨?_, ?_, ?_⟩
  · intro s t h
    unfold parseTranslation
    rw [h]
  · intro s h
    unfold parseTranslation
    rw [h]
  · intro pid c s
    rfl

/-- Witness for the amended C7 at a tag-free response. -/
theorem C7_witness :
    parseTranslation "hello" = (trimChars "hello", true) :=
  C7_theorem.2.1 "hello" (by decide)

/-! ## Claim C8: every save is a sorted, one-record-per-id full snapshot -/

/-- Claim C8 is false as stated for step1.2: its save
(`step1.2:191-212`) performs no directory creation — there is no `mkdir`
anywhere in step1.2 — so with the destination directory missing the
`open(..., "w")` raises, the `except` of `step1.2:211-212` swallows the
error, and nothing is written: here a save of a nonempty record set
leaves the file absent and the directory still missing, instead of
writing the sorted snapshot after ensuring the directory exists. -/
theorem C8_counterexample :
    (save12file false [(some 1, { id := some 1, translation := some "t" })]
      none).2 = none
    ∧ (save12file false [(some 1, { id := some 1, translation := some "t" })]
        none).1 = false
    ∧ save12content [(some 1, { id := some 1, translation := some "t" })]
        ≠ [] := by
  refine ⟨rfl, rfl, by decide⟩

/-- Claim C8 (amended): every save writes the entire current set of
records as the complete replacement of the file, sorted ascending by
identifier, with exactly one record per distinct identifier (given the
dictionary invariants the scripts maintain: distinct keys, each record
reporting its own key); step1.2 additionally drops records without an
identifier. The saves of step1.4/1.6/1.8 first ensure the destination
directory exists (`step1.4:287-289`) and then always write; step1.2's
save ensures nothing: it writes the same sorted full snapshot only when
the directory already exists, and with the directory missing the raised
error is swallowed and the prior file contents are left untouched. -/
theorem C8_theorem :
    (∀ res : Results14, List.Sorted le14 (save14content res))
    ∧ (∀ res : Results14, List.Perm (save14content res) (res.map (·.2)))
    ∧ (∀ res : Results14, keysNodup res →
        (∀ p ∈ res, (p : Nat × Rec14).2.id = p.1) →
        ((save14content res).map Rec14.id).Nodup)
    ∧ (∀ res : Results12, List.Sorted le12 (save12content res))
    ∧ (∀ res : Results12, List.Perm (save12content res)
        ((res.map (·.2)).filter (fun r => r.id.isSome)))
    ∧ (∀ res : Results12, keysNodup res →
        (∀ p ∈ res, (p : Option Nat × Rec12).2.id = p.1) →
        ((save12content res).map Rec12.id).Nodup)
    ∧ (∀ (d : Bool) (res : Results14) (oldFile : Option (List Rec14)),
        (save14file d res oldFile).1 = true
          ∧ (save14file d res oldFile).2 = some (save14content res))
    ∧ (∀ (res : Results12) (oldFile : Option (List Rec12)),
        (save12file true res oldFile).2 = some (save12content res))
    ∧ (∀ (res : Results12) (oldFile : Option (List Rec12)),
        (save12file false res oldFile).1 = false
          ∧ (save12file false res oldFile).2 = oldFile) :=
  ⟨save14content_sorted, save14content_perm,
   fun _ h1 h2 => save14content_ids_nodup h1 h2,
   save12content_sorted, save12content_perm,
   fun _ h1 h2 => save12content_ids_nodup h1 h2,
   fun _ _ _ => ⟨rfl, rfl⟩,
   fun _ _ => rfl,
   fun _ _ => ⟨rfl, rfl⟩⟩

/-- Witness for C8 on a concrete out-of-order dictionary. -/
theorem C8_witness :
    ((save14content [(2, { id := 2 }), (1, { id := 1, error := some "e" })]).map
      Rec14.id).Nodup :=
  C8_theorem.2.2.1 [(2, { id := 2 }), (1, { id := 1, error := some "e" })]
    (by decide) (by decide)

end VisualSphinx
